import Mathlib

/-!
Verification development for the Interview-Prep-Trainer backend.

This file shallowly embeds the exam-session state machine, the grading
pipeline, the hint issuer, the question-generation fallback loop and the
structured-output extractors of the repository
(`backend/app/services/exam_service.py`, `grading_service.py`,
`hint_service.py`, `question_service.py`, `backend/app/agents/crew.py`)
as executable Lean definitions, and proves or refutes the specification
claims about them.

Modelling conventions:
* Python floats are modelled as exact rationals (`ℚ`); `round(x, 1)` is
  modelled as rounding `10*x` to the nearest integer (ties are never
  exercised by any concrete statement below, so the tie-breaking rule is
  immaterial).
* Python dicts that cross the client boundary are modelled as association
  lists `List (String × Val)` so that key-presence claims are direct.
* Calls to the language model, to CrewAI and to the database are await
  points external to the repository; each embedded operation takes their
  outcome as an explicit argument (`Option …`, where `none` models the
  call raising an exception).
* `json.loads` (Python standard library, external to the repository) is
  embedded as a small executable JSON parser `loads`, faithful on the
  object/number/string/bool/null fragment the theorems below exercise.
-/

namespace IPT

/-- Python `round(x, 1)` on the exact rational value of `x`. -/
def round1 (x : ℚ) : ℚ := (round (10 * x) : ℤ) / 10

/-- Python `round(x, 2)` on the exact rational value of `x`. -/
def round2 (x : ℚ) : ℚ := (round (100 * x) : ℤ) / 100

/-- Python `str.lower()` (ASCII fragment). -/
def pyLower (s : String) : String := String.mk (s.data.map Char.toLower)

/-- Python `str.upper()` (ASCII fragment). -/
def pyUpper (s : String) : String := String.mk (s.data.map Char.toUpper)

/-- Python `str.strip()` (whitespace on both ends). -/
def pyStrip (s : String) : String :=
  String.mk (((s.data.dropWhile Char.isWhitespace).reverse.dropWhile
    Char.isWhitespace).reverse)

/-- Accumulating worker for `pySplit`. -/
def splitWsAux : List Char → List Char → List String
  | [], acc => if acc.isEmpty then [] else [String.mk acc.reverse]
  | c :: rest, acc =>
      if c.isWhitespace then
        if acc.isEmpty then splitWsAux rest []
        else String.mk acc.reverse :: splitWsAux rest []
      else splitWsAux rest (c :: acc)

/-- Python `str.split()` with no argument: split on whitespace runs and
drop empty pieces. -/
def pySplit (s : String) : List String :=
  splitWsAux s.data []

/-- JSON-like values, modelling Python objects decoded from model output
and the payloads serialized back to the client. -/
inductive Val where
  | vStr : String → Val
  | vNum : ℚ → Val
  | vBool : Bool → Val
  | vNull : Val
  | vArr : List Val → Val
  | vObj : List (String × Val) → Val

/-- Association-list key lookup, modelling Python `d.get(key)` /
`d[key]` on the dict literals built by the services (keys are unique). -/
def getKey : List (String × Val) → String → Option Val
  | [], _ => none
  | (k, v) :: rest, key => if k = key then some v else getKey rest key

/-- Python `key in d`. -/
def hasKey (d : List (String × Val)) (key : String) : Bool :=
  (getKey d key).isSome

/-- Python truthiness of a decoded JSON value. -/
def pyTruthy : Val → Bool
  | .vStr s => s ≠ ""
  | .vNum q => q ≠ 0
  | .vBool b => b
  | .vNull => false
  | .vArr xs => !xs.isEmpty
  | .vObj fs => !fs.isEmpty

/-- Payload produced by `QuestionService.generate_question`: the dict with
`question_text`, `correct_answer`, `explanation`, `options`,
`code_snippet`, plus the echoed `topic`/`difficulty`. -/
structure QuestionPayload where
  question_text : String
  correct_answer : String
  explanation : String := ""
  options : Option (List (String × String)) := none
  code_snippet : Option String := none
  topic : String := ""
  difficulty : String := ""

/-- One entry of `exam.questions`; optional fields model dict keys that
are absent until the record is answered (`d.get(k, default)` reads). -/
structure QRecord where
  pending : Bool
  question_text : String
  correct_answer : String
  explanation : String := ""
  options : Option (List (String × String)) := none
  code_snippet : Option String := none
  hints : List String := []
  student_answer : Option String := none
  score : Option ℚ := none
  is_correct : Option Bool := none
  feedback : Option String := none
  encouragement : Option String := none

/-- The persisted exam record (`app/models/exam.py` fields used by the
services). -/
structure Exam where
  topic : String
  difficulty : String
  question_type : String
  category : String
  mode : String
  time_limit_seconds : Option Nat
  hints_used : Nat
  total_questions : Nat
  current_index : Nat
  score_total : ℚ
  status : String
  questions : List QRecord

/-- Embedding of `settings.DEFAULT_EXAM_QUESTIONS` (`app/config.py`). -/
def DEFAULT_EXAM_QUESTIONS : Nat := 5

/-- Embedding of `settings.MAX_RETRIES` (`app/config.py`). -/
def MAX_RETRIES : Nat := 3

/-- Embedding of `MODE_TIME_LIMITS.get(mode)` (`app/api/schemas.py`): practice has no
timer, timed 300 s, mock 420 s, unknown keys give `None`. -/
def MODE_TIME_LIMITS (mode : String) : Option Nat :=
  if mode = "timed" then some 300
  else if mode = "mock" then some 420
  else none

/-- Python `a or b` on an optional integer (`None` and `0` are falsy). -/
def pyOrNat (a : Option Nat) (b : Option Nat) : Option Nat :=
  match a with
  | some n => if n = 0 then b else some n
  | none => b

/-- Embedding of `HINT_PENALTY_PER_HINT` (`app/services/hint_service.py`). -/
def HINT_PENALTY_PER_HINT : ℚ := 15/100

/-- Embedding of `MAX_HINTS_PER_QUESTION` (`app/services/hint_service.py`). -/
def MAX_HINTS_PER_QUESTION : Nat := 3

/-- Embedding of `_sanitize_question` (`exam_service.py`): the client-visible question
payload; `options` is attached only for a truthy multiple-choice options
dict, `code_snippet` only when truthy. -/
def sanitizeQuestion (question : QuestionPayload) (question_type : String)
    (category : String) : List (String × Val) :=
  [("question_text", Val.vStr question.question_text),
   ("question_type", Val.vStr question_type),
   ("category", Val.vStr category),
   ("topic", Val.vStr question.topic),
   ("difficulty", Val.vStr question.difficulty)]
  ++ (match question.options with
      | some opts =>
          if question_type = "multiple_choice" ∧ ¬ opts.isEmpty then
            [("options", Val.vObj (opts.map fun p => (p.1, Val.vStr p.2)))]
          else []
      | none => [])
  ++ (match question.code_snippet with
      | some cs => if cs ≠ "" then [("code_snippet", Val.vStr cs)] else []
      | none => [])

/-- Embedding of `_redact_question` (`exam_service.py`): pending records project to
`{pending, question_text, options}`, answered ones expose the grading
fields. -/
def redactQuestion (q : QRecord) : List (String × Val) :=
  if q.pending then
    [("pending", Val.vBool true),
     ("question_text", Val.vStr q.question_text),
     ("options", match q.options with
        | some opts => Val.vObj (opts.map fun p => (p.1, Val.vStr p.2))
        | none => Val.vNull)]
  else
    [("pending", Val.vBool false),
     ("question_text", Val.vStr q.question_text),
     ("student_answer", Val.vStr (q.student_answer.getD "")),
     ("correct_answer", Val.vStr q.correct_answer),
     ("score", Val.vNum (q.score.getD 0)),
     ("is_correct", Val.vBool (q.is_correct.getD false)),
     ("feedback", Val.vStr (q.feedback.getD ""))]

/-- Embedding of `_score_to_grade` (`exam_service.py`): letter grade from a summary
percentage. -/
def scoreToGrade (percentage : ℚ) : String :=
  if percentage ≥ 90 then "A"
  else if percentage ≥ 70 then "B"
  else if percentage ≥ 50 then "C"
  else if percentage ≥ 30 then "D"
  else "F"

/-- Embedding of `ExamService._build_summary`. -/
def buildSummary (exam : Exam) (answered : List QRecord) (total_score : ℚ) :
    List (String × Val) :=
  let max_score : ℚ := (exam.total_questions : ℚ) * 10
  let percentage : ℚ :=
    if max_score > 0 then round1 (total_score / max_score * 100) else 0
  [("topic", Val.vStr exam.topic),
   ("difficulty", Val.vStr exam.difficulty),
   ("total_questions", Val.vNum (exam.total_questions : ℚ)),
   ("total_score", Val.vNum total_score),
   ("max_score", Val.vNum max_score),
   ("percentage", Val.vNum percentage),
   ("grade_letter", Val.vStr (scoreToGrade percentage)),
   ("passed", Val.vBool (percentage ≥ 50)),
   ("questions", Val.vArr (answered.map fun q =>
      Val.vObj [("question_text", Val.vStr q.question_text),
                ("correct_answer", Val.vStr q.correct_answer),
                ("student_answer", Val.vStr (q.student_answer.getD "")),
                ("score", Val.vNum (q.score.getD 0)),
                ("is_correct", Val.vBool (q.is_correct.getD false)),
                ("feedback", Val.vStr (q.feedback.getD ""))]))]

/-- Embedding of `ExamService.start_exam`: the generator outcome for question 1 is the
`question` argument; returns the created exam record and the response
dict (which hard-codes `current_index = 1`). -/
def startExam (examId : String) (topic difficulty : String)
    (num_questions : Option Nat) (question_type category mode : String)
    (time_limit_seconds : Option Nat) (question : QuestionPayload) :
    Exam × List (String × Val) :=
  let num_q : Nat :=
    match num_questions with
    | some n => if n = 0 then DEFAULT_EXAM_QUESTIONS else n
    | none => DEFAULT_EXAM_QUESTIONS
  let resolved_time := pyOrNat time_limit_seconds (MODE_TIME_LIMITS mode)
  let exam : Exam :=
    { topic := topic, difficulty := difficulty,
      question_type := question_type, category := category, mode := mode,
      time_limit_seconds := resolved_time,
      hints_used := 0,
      total_questions := num_q,
      current_index := 0,
      score_total := 0,
      status := "in_progress",
      questions := [{
        pending := true,
        question_text := question.question_text,
        correct_answer := question.correct_answer,
        explanation := question.explanation,
        options := question.options,
        code_snippet := question.code_snippet }] }
  (exam,
   [("exam_id", Val.vStr examId),
    ("total_questions", Val.vNum (num_q : ℚ)),
    ("current_index", Val.vNum 1),
    ("mode", Val.vStr mode),
    ("time_limit_seconds",
      match resolved_time with
      | some t => Val.vNum (t : ℚ)
      | none => Val.vNull),
    ("question", Val.vObj (sanitizeQuestion question question_type category))])

/-- Reverse scan of `submit_answer` locating the last record with
`pending = True`, together with its index. -/
def findLastPendingAux : List QRecord → Nat → Option (Nat × QRecord)
  | [], _ => none
  | q :: rest, i =>
      match findLastPendingAux rest (i + 1) with
      | some r => some r
      | none => if q.pending then some (i, q) else none

/-- The pending-record search of `submit_answer` (scan from the end). -/
def findLastPending (qs : List QRecord) : Option (Nat × QRecord) :=
  findLastPendingAux qs 0

/-- The grading dict consumed by `submit_answer` (every `_grade_answer`
branch populates these four keys). -/
structure GradeOut where
  score : ℚ := 0
  passed : Bool := false
  feedback : String := ""
  encouragement : String := ""

/-- The hint-penalty application of `submit_answer` (lines 134–138): a
truthy hints list multiplies the raw score by `max(0, 1 - n*0.15)` and
rounds to one decimal; an empty list leaves the score untouched. -/
def applyHintPenalty (score : ℚ) (question_hints : List String) : ℚ :=
  if question_hints.isEmpty then score
  else round1 (score * max 0 (1 - (question_hints.length : ℚ) * HINT_PENALTY_PER_HINT))

/-- The fresh pending record appended for the next question. -/
def freshRecord (nq : QuestionPayload) : QRecord :=
  { pending := true,
    question_text := nq.question_text,
    correct_answer := nq.correct_answer,
    explanation := nq.explanation,
    options := nq.options,
    code_snippet := nq.code_snippet }

/-- The answered record written back over the pending one by
`submit_answer` (lines 141–153; the dict literal drops `code_snippet`). -/
def answeredRecord (pending_q : QRecord) (answer : String)
    (grade_result : GradeOut) (score : ℚ) : QRecord :=
  { pending := false,
    question_text := pending_q.question_text,
    correct_answer := pending_q.correct_answer,
    explanation := pending_q.explanation,
    options := pending_q.options,
    hints := pending_q.hints,
    student_answer := some answer,
    score := some score,
    is_correct := some grade_result.passed,
    feedback := some grade_result.feedback,
    encouragement := some grade_result.encouragement }

/-- The base response dict of `submit_answer` (before `next_question` /
`exam_summary` is attached). -/
def submitRespBase (exam : Exam) (grade_result : GradeOut)
    (pending_q : QRecord) (score : ℚ) (new_index : Nat) (new_score : ℚ)
    (exam_completed : Bool) : List (String × Val) :=
  [("is_correct", Val.vBool grade_result.passed),
   ("score", Val.vNum score),
   ("feedback", Val.vStr grade_result.feedback),
   ("correct_answer", Val.vStr pending_q.correct_answer),
   ("encouragement", Val.vStr grade_result.encouragement),
   ("exam_completed", Val.vBool exam_completed),
   ("current_index",
     Val.vNum (if exam_completed then (new_index : ℚ) else (new_index : ℚ) + 1)),
   ("total_questions", Val.vNum (exam.total_questions : ℚ)),
   ("score_so_far", Val.vNum new_score)]

/-- Body of `submit_answer` once the pending record is located. -/
def submitWithPending (exam : Exam) (answer : String)
    (grade_result : GradeOut) (next_question : Option QuestionPayload)
    (pending_idx : Nat) (pending_q : QRecord) :
    Except String (Exam × List (String × Val)) :=
  let score := applyHintPenalty grade_result.score pending_q.hints
  let questions_list :=
    exam.questions.set pending_idx (answeredRecord pending_q answer grade_result score)
  let new_index := exam.current_index + 1
  let new_score := exam.score_total + score
  if new_index ≥ exam.total_questions then
    let exam' := { exam with
      questions := questions_list,
      current_index := new_index,
      score_total := new_score,
      status := "completed" }
    .ok (exam', submitRespBase exam grade_result pending_q score new_index new_score true ++
      [("exam_summary", Val.vObj
        (buildSummary exam (questions_list.filter (fun q => !q.pending)) new_score))])
  else
    match next_question with
    | none => .error "question generation failed"
    | some nq =>
      let exam' := { exam with
        questions := questions_list ++ [freshRecord nq],
        current_index := new_index,
        score_total := new_score }
      .ok (exam', submitRespBase exam grade_result pending_q score new_index new_score false ++
        [("next_question",
          Val.vObj (sanitizeQuestion nq exam.question_type exam.category))])

/-- Embedding of `ExamService.submit_answer` on a located exam. The grader outcome and
(for a non-final question) the generator outcome are arguments; a `none`
next question models the generator raising, which aborts before any
state update. Errors carry the raised message. -/
def submitAnswer (exam : Exam) (answer : String) (grade_result : GradeOut)
    (next_question : Option QuestionPayload) :
    Except String (Exam × List (String × Val)) :=
  if exam.status = "completed" then .error "Exam already completed"
  else
    match findLastPending exam.questions with
    | none => .error "No pending question found for this exam"
    | some (pending_idx, pending_q) =>
        submitWithPending exam answer grade_result next_question pending_idx pending_q

/-! ### Regular-expression engine

The services locate JSON candidates with `re.search` on two fixed
patterns.  The engine below is a standard backtracking matcher in
continuation-passing style; alternatives are tried in the priority order
of Python's `re` module (greedy `*`/`?` try the longer branch first,
lazy `*?` the shorter), and `search` scans start positions left to
right, so the first overall success coincides with `re.search`.  Fuel
bounds the nesting depth of the dynamic call tree; every star body of
the patterns used consumes at least one character, so a fuel of
`input.length + 100` is never exhausted on them. -/

/-- Pattern syntax: literal strings, single-character classes, greedy
`?`, greedy `*`, lazy `*?`, concatenation. -/
inductive RE where
  | lit : List Char → RE
  | cls : (Char → Bool) → RE
  | opt : RE → RE
  | starG : RE → RE
  | starL : RE → RE
  | seq : RE → RE → RE

/-- Literal-prefix match returning the remaining input. -/
def litMatch : List Char → List Char → Option (List Char)
  | [], input => some input
  | _ :: _, [] => none
  | c :: cs, x :: xs => if c = x then litMatch cs xs else none

/-- Backtracking matcher: `reMatch fuel r input k` tries every way `r`
can match a prefix of `input`, in regex priority order, calling `k` on
the corresponding remainder; the first success of `k` wins. -/
def reMatch {α : Type} : Nat → RE → List Char → (List Char → Option α) → Option α
  | 0, _, _, _ => none
  | _ + 1, .lit cs, input, k =>
      match litMatch cs input with
      | some rest => k rest
      | none => none
  | _ + 1, .cls p, input, k =>
      match input with
      | [] => none
      | c :: rest => if p c then k rest else none
  | fuel + 1, .opt r, input, k =>
      match reMatch fuel r input k with
      | some x => some x
      | none => k input
  | fuel + 1, .starG r, input, k =>
      match reMatch fuel r input (fun rest =>
          if rest.length < input.length then reMatch fuel (.starG r) rest k
          else none) with
      | some x => some x
      | none => k input
  | fuel + 1, .starL r, input, k =>
      match k input with
      | some x => some x
      | none =>
          reMatch fuel r input (fun rest =>
            if rest.length < input.length then reMatch fuel (.starL r) rest k
            else none)
  | fuel + 1, .seq a b, input, k =>
      reMatch fuel a input (fun rest => reMatch fuel b rest k)

/-- Whitespace class (`\s` on the inputs exercised here). -/
def wsChar (c : Char) : Bool := c.isWhitespace

/-- The `.` class under `re.DOTALL`. -/
def anyChar (_ : Char) : Bool := true

/-- The `[^{}]` class. -/
def nonBrace (c : Char) : Bool := !(c = '{' || c = '}')

/-- Attempt a whole-pattern match anchored at the start of `s`,
returning the matched prefix. -/
def reFindAt (r : RE) (s : List Char) : Option (List Char) :=
  reMatch (s.length + 100) r s (fun rest => some (s.take (s.length - rest.length)))

/-- Left-to-right scan over start positions (the `re.search` strategy). -/
def scanSearch (f : List Char → Option (List Char)) : List Char → Option (List Char)
  | [] => f []
  | c :: rest =>
      match f (c :: rest) with
      | some m => some m
      | none => scanSearch f rest

/-- The pattern `\{[^{}]*(?:\{[^{}]*\}[^{}]*)*\}`: first balanced-brace
object with one level of nesting. -/
def braceRE : RE :=
  .seq (.lit ['{'])
    (.seq (.starG (.cls nonBrace))
      (.seq (.starG (.seq (.lit ['{'])
                      (.seq (.starG (.cls nonBrace))
                        (.seq (.lit ['}']) (.starG (.cls nonBrace))))))
        (.lit ['}'])))

/-- The simple pattern `\{[^{}]*\}` used by the hint extractor. -/
def simpleBraceRE : RE :=
  .seq (.lit ['{']) (.seq (.starG (.cls nonBrace)) (.lit ['}']))

/-- Embedding of `re.search(r"\{[^\x7b\x7d]*(?:...)*\}", text, re.DOTALL)` returning
the matched text. -/
def braceSearch (s : String) : Option String :=
  (scanSearch (reFindAt braceRE) s.data).map String.mk

/-- Embedding of `re.search(r"\{[^\x7b\x7d]*\}", raw, re.DOTALL)` of the hint
extractor. -/
def simpleBraceSearch (s : String) : Option String :=
  (scanSearch (reFindAt simpleBraceRE) s.data).map String.mk

/-- Prefix of the fenced-block pattern before the capturing group:
three backticks, optional `json`, whitespace. -/
def fencePre : RE :=
  .seq (.lit "```".data) (.seq (.opt (.lit "json".data)) (.starG (.cls wsChar)))

/-- The capturing group `(\{.*?\})` of the fenced-block pattern. -/
def fenceGrp : RE :=
  .seq (.lit ['{']) (.seq (.starL (.cls anyChar)) (.lit ['}']))

/-- Suffix of the fenced-block pattern after the group: whitespace and
three backticks. -/
def fencePost : RE :=
  .seq (.starG (.cls wsChar)) (.lit "```".data)

/-- Anchored attempt of the full fenced-block pattern, returning the
text captured by the group; the continuations realize backtracking
across the three fragments exactly as a single `re` pattern would. -/
def fenceFindAt (s : List Char) : Option (List Char) :=
  let fuel := s.length + 100
  reMatch fuel fencePre s (fun r1 =>
    reMatch fuel fenceGrp r1 (fun r2 =>
      reMatch fuel fencePost r2 (fun _ =>
        some (r1.take (r1.length - r2.length)))))

/-- Embedding of `re.search(r"```(?:json)?\s*(\{.*?\})\s*```", text, re.DOTALL)`
returning group 1. -/
def fenceSearch (s : String) : Option String :=
  (scanSearch fenceFindAt s.data).map String.mk

/-! ### JSON decoding (`json.loads`)

Executable parser for the JSON fragment the theorems exercise: objects,
arrays, strings with the common escapes, decimal numbers, booleans and
null.  As in Python, the whole (whitespace-trimmed) input must be
consumed. -/

/-- Skip leading whitespace. -/
def skipWs : List Char → List Char
  | c :: rest => if c.isWhitespace then skipWs rest else c :: rest
  | [] => []

/-- Parse the body of a string literal after the opening quote. -/
def parseStrAux : List Char → Option (List Char × List Char)
  | [] => none
  | '"' :: rest => some ([], rest)
  | '\\' :: e :: rest =>
      let esc : Option Char :=
        if e = '"' then some '"'
        else if e = '\\' then some '\\'
        else if e = '/' then some '/'
        else if e = 'n' then some '\n'
        else if e = 't' then some '\t'
        else if e = 'r' then some '\r'
        else none
      match esc with
      | some c =>
          match parseStrAux rest with
          | some (cs, r) => some (c :: cs, r)
          | none => none
      | none => none
  | c :: rest =>
      match parseStrAux rest with
      | some (cs, r) => some (c :: cs, r)
      | none => none

/-- Digit run and remainder. -/
def takeDigits (s : List Char) : List Char × List Char :=
  s.span Char.isDigit

/-- Decimal digits to a natural number. -/
def digitsToNat (ds : List Char) : Nat :=
  ds.foldl (fun acc c => acc * 10 + (c.toNat - '0'.toNat)) 0

/-- Parse a decimal number (optional sign, optional fraction part). -/
def parseNumber (input : List Char) : Option (ℚ × List Char) :=
  let (neg, input1) :=
    match input with
    | '-' :: r => (true, r)
    | _ => (false, input)
  let (ds, r1) := takeDigits input1
  if ds.isEmpty then none
  else
    let intPart : ℚ := (digitsToNat ds : ℚ)
    let (q, rest) :=
      match r1 with
      | '.' :: r2 =>
          let (fs, r3) := takeDigits r2
          if fs.isEmpty then ((intPart, r1) : ℚ × List Char)
          else (intPart + (digitsToNat fs : ℚ) / ((10 : ℚ) ^ fs.length), r3)
      | _ => (intPart, r1)
    some (if neg then -q else q, rest)

mutual

/-- Parse one JSON value. -/
def parseVal : Nat → List Char → Option (Val × List Char)
  | 0, _ => none
  | fuel + 1, input =>
    match skipWs input with
    | '"' :: rest =>
        match parseStrAux rest with
        | some (cs, r) => some (.vStr (String.mk cs), r)
        | none => none
    | '{' :: rest => parseObj fuel rest
    | '[' :: rest => parseArr fuel rest
    | 't' :: rest =>
        match litMatch "rue".data rest with
        | some r => some (.vBool true, r)
        | none => none
    | 'f' :: rest =>
        match litMatch "alse".data rest with
        | some r => some (.vBool false, r)
        | none => none
    | 'n' :: rest =>
        match litMatch "ull".data rest with
        | some r => some (.vNull, r)
        | none => none
    | other =>
        match parseNumber other with
        | some (q, r) => some (.vNum q, r)
        | none => none

/-- Parse an object body after the opening brace. -/
def parseObj : Nat → List Char → Option (Val × List Char)
  | 0, _ => none
  | fuel + 1, input =>
    match skipWs input with
    | '}' :: rest => some (.vObj [], rest)
    | other =>
        match parseMembers fuel other with
        | some (ms, r) => some (.vObj ms, r)
        | none => none

/-- Parse one or more `"key": value` members up to the closing brace. -/
def parseMembers : Nat → List Char → Option (List (String × Val) × List Char)
  | 0, _ => none
  | fuel + 1, input =>
    match skipWs input with
    | '"' :: rest =>
        match parseStrAux rest with
        | some (kcs, r1) =>
            match skipWs r1 with
            | ':' :: r2 =>
                match parseVal fuel r2 with
                | some (v, r3) =>
                    match skipWs r3 with
                    | ',' :: r4 =>
                        match parseMembers fuel r4 with
                        | some (ms, r5) => some ((String.mk kcs, v) :: ms, r5)
                        | none => none
                    | '}' :: r4 => some ([(String.mk kcs, v)], r4)
                    | _ => none
                | none => none
            | _ => none
        | none => none
    | _ => none

/-- Parse an array body after the opening bracket. -/
def parseArr : Nat → List Char → Option (Val × List Char)
  | 0, _ => none
  | fuel + 1, input =>
    match skipWs input with
    | ']' :: rest => some (.vArr [], rest)
    | other =>
        match parseItems fuel other with
        | some (vs, r) => some (.vArr vs, r)
        | none => none

/-- Parse one or more array items up to the closing bracket. -/
def parseItems : Nat → List Char → Option (List Val × List Char)
  | 0, _ => none
  | fuel + 1, input =>
    match parseVal fuel input with
    | some (v, r1) =>
        match skipWs r1 with
        | ',' :: r2 =>
            match parseItems fuel r2 with
            | some (vs, r3) => some (v :: vs, r3)
            | none => none
        | ']' :: r2 => some ([v], r2)
        | _ => none
    | none => none

end

/-- Embedding of `json.loads`: decode one JSON document; the entire input (up to
trailing whitespace) must be consumed, as in Python. -/
def loads (s : String) : Option Val :=
  match parseVal (s.length + 10) s.data with
  | some (v, rest) => if (skipWs rest).isEmpty then some v else none
  | none => none

/-! ### Hint service (`app/services/hint_service.py`) -/

/-- The three fixed generic hints of the `_generate_hint` failure path,
keyed by hint index. -/
def fallbackHints (hint_number : Nat) : String :=
  if hint_number = 1 then
    "Think about what data structure or approach would be most efficient here."
  else if hint_number = 2 then
    "Consider breaking the problem into smaller sub-problems."
  else if hint_number = 3 then
    "Review the key concepts related to this topic and look for edge cases."
  else "Review the fundamentals of this topic."

/-- Embedding of `HintService._generate_hint`: `llm = none` models the model call (or
anything else in the `try` block) raising, which is absorbed into the
fixed generic hints; on raw text, a `\x7b[^\x7b\x7d]*\x7d` candidate is
decoded and its string-valued `hint` member returned, any failure
falling back to the stripped raw text. -/
def generateHint (llm : Option String) (hint_number : Nat) : String :=
  match llm with
  | none => fallbackHints hint_number
  | some raw =>
      match simpleBraceSearch raw with
      | some m =>
          match loads m with
          | some (Val.vObj data) =>
              match getKey data "hint" with
              | some (Val.vStr h) => h
              | _ => pyStrip raw
          | _ => pyStrip raw
      | none => pyStrip raw

/-- Forward scan of `get_hint` locating the first pending record. -/
def findFirstPendingAux : List QRecord → Nat → Option (Nat × QRecord)
  | [], _ => none
  | q :: rest, i => if q.pending then some (i, q) else findFirstPendingAux rest (i + 1)

/-- The pending-record search of `get_hint` (scan from the front). -/
def findFirstPending (qs : List QRecord) : Option (Nat × QRecord) :=
  findFirstPendingAux qs 0

/-- The response dict of `get_hint`. -/
structure HintResult where
  hint : String
  hints_used : Nat
  score_penalty : ℚ

/-- Embedding of `HintService.get_hint`: `examOpt = none` models an unknown exam id;
`llm` is the model-call outcome threaded to `_generate_hint`. -/
def getHint (examOpt : Option Exam) (llm : Option String) :
    Except String (HintResult × Exam) :=
  match examOpt with
  | none => .error "Exam not found"
  | some exam =>
    if exam.status ≠ "in_progress" then .error "Exam is not in progress"
    else if exam.mode = "timed" then
      .error "Hints are not available in Timed Exam mode"
    else
      match findFirstPending exam.questions with
      | none => .error "No pending question to hint on"
      | some (pending_idx, pending) =>
        let question_hints := pending.hints
        let hint_number := question_hints.length + 1
        if hint_number > MAX_HINTS_PER_QUESTION then
          .error "Maximum hints per question reached"
        else
          let hint_text := generateHint llm hint_number
          let pending' := { pending with hints := question_hints ++ [hint_text] }
          let questions := exam.questions.set pending_idx pending'
          let total_hints := exam.hints_used + 1
          let exam' := { exam with questions := questions, hints_used := total_hints }
          let penalty := (hint_number : ℚ) * HINT_PENALTY_PER_HINT
          .ok ({ hint := hint_text, hints_used := total_hints,
                 score_penalty := round2 penalty }, exam')

/-! ### Structured-output extractors -/

/-- Embedding of `_extract_json` (`app/agents/crew.py`): fenced block, else first
balanced-brace object, else the whole stripped text.  A stage whose
regex matches hands its candidate straight to `json.loads`; a decode
failure there raises (modelled `none`) instead of falling through. -/
def crewExtractJson (text : String) : Option Val :=
  match fenceSearch text with
  | some g => loads g
  | none =>
      match braceSearch text with
      | some m => loads m
      | none => loads (pyStrip text)

/-- Embedding of `_extract_json` (`app/services/question_service.py`): narrows the
text to the fenced-block group if present, then to the first
balanced-brace object, then decodes once. -/
def qsExtractJson (raw : String) : Option Val :=
  let text :=
    match fenceSearch raw with
    | some g => g
    | none => pyStrip raw
  let text' :=
    match braceSearch text with
    | some m => m
    | none => text
  loads text'

/-! ### Grading service (`app/services/grading_service.py`) -/

/-- Embedding of `GradingService._score_to_grade`. -/
def scoreToGradeGS (score : ℚ) : String :=
  if score ≥ 9 then "A"
  else if score ≥ 7 then "B"
  else if score ≥ 5 then "C"
  else if score ≥ 3 then "D"
  else "F"

/-- Python `float(x)` on a decoded JSON value; `none` models the raised
`ValueError`/`TypeError`. -/
def pyFloat : Val → Option ℚ
  | .vNum q => some q
  | .vBool b => some (if b then 1 else 0)
  | .vStr s =>
      match parseNumber (pyStrip s).data with
      | some (q, rest) => if rest.isEmpty then some q else none
      | none => none
  | _ => none

/-- Python `int(x)` on a decoded JSON value (truncation toward zero). -/
def pyInt : Val → Option ℤ
  | .vNum q => some (if q ≥ 0 then ⌊q⌋ else -⌊-q⌋)
  | .vBool b => some (if b then 1 else 0)
  | .vStr s =>
      let t := pyStrip s
      let (neg, body) :=
        match t.data with
        | '-' :: r => (true, r)
        | other => (false, other)
      let (ds, rest) := takeDigits body
      if ds.isEmpty ∨ ¬ rest.isEmpty then none
      else some (if neg then -(digitsToNat ds : ℤ) else (digitsToNat ds : ℤ))
  | _ => none

/-- A `GradeResult` dict.  `score` is always a float after conversion
and `passed` is consumed downstream as a truth value (Python stores the
model's value verbatim; its truthiness is what every later `if` and
serialization of `is_correct` observes); the pass-through fields keep
their decoded JSON values. -/
structure GradeResultR where
  score : ℚ
  max_score : Val
  grade_letter : Val
  passed : Bool
  mistakes : Val
  strengths : Val
  feedback : Val
  recommendations : Val
  encouragement : Val

/-- The candidate-narrowing stage of `_parse_llm_response`: fenced-block
group if present, else the stripped text; then the first balanced-brace
object inside it, if any. -/
def llmStage (raw : String) : String :=
  let text :=
    match fenceSearch raw with
    | some g => g
    | none => pyStrip raw
  match braceSearch text with
  | some m => m
  | none => text

/-- Normalization step of `_parse_llm_response` on the decoded object:
require a `score` key, convert and clamp the score, default the
remaining fields (`grade_letter` and the `passed` default both consult
the unclamped score, as in the source). -/
def normalizeLlm (data : List (String × Val)) : Option GradeResultR :=
  if ¬ hasKey data "score" then none
  else
    match pyFloat ((getKey data "score").getD (Val.vNum 5)) with
    | none => none
    | some score =>
        some {
          score := max 0 (min 10 score),
          max_score := Val.vNum 10,
          grade_letter :=
            (getKey data "grade_letter").getD (Val.vStr (scoreToGradeGS score)),
          passed :=
            match getKey data "passed" with
            | some v => pyTruthy v
            | none => decide (score ≥ 5),
          mistakes := (getKey data "mistakes").getD (Val.vArr []),
          strengths := (getKey data "strengths").getD (Val.vArr []),
          feedback := (getKey data "feedback").getD (Val.vStr ""),
          recommendations := (getKey data "recommendations").getD (Val.vArr []),
          encouragement := (getKey data "encouragement").getD (Val.vStr "") }

/-- Embedding of `GradingService._parse_llm_response`: stage the raw text down to one
JSON candidate, decode, then normalize. -/
def parseLlmResponse (raw : String) : Option GradeResultR :=
  match loads (llmStage raw) with
  | some (Val.vObj data) => normalizeLlm data
  | some _ => none
  | none => none

/-- Embedding of `GradingService._grade_single_prompt`: up to `MAX_RETRIES` model
calls (the caller supplies one outcome per attempt, `none` for a raised
call); the first parsable response wins, exhaustion raises. -/
def gradeSinglePrompt : List (Option String) → Except String GradeResultR
  | [] => .error "LLM failed to return valid response after all retries"
  | a :: rest =>
      match a with
      | some raw =>
          match parseLlmResponse raw with
          | some r => .ok r
          | none => gradeSinglePrompt rest
      | none => gradeSinglePrompt rest

/-! ### Multi-agent combination (`app/agents/crew.py`) -/

/-- The default result dict of `GradingCrew._combine_results` before any
stage output is merged. -/
def crewDefaults : GradeResultR :=
  { score := 5, max_score := Val.vNum 10, grade_letter := Val.vStr "C",
    passed := true, mistakes := Val.vArr [], strengths := Val.vArr [],
    feedback := Val.vStr "", recommendations := Val.vArr [],
    encouragement := Val.vStr "" }

/-- Grading-stage merge of `_combine_results`.  A decode failure keeps
the defaults; assignments are sequential, so a `float`/`int` conversion
error keeps the fields not yet assigned at their defaults; decoding to
a non-object raises out of the method (`.error`). -/
def combineGradingStage (gradingRaw : String) : Except String GradeResultR :=
  match crewExtractJson gradingRaw with
  | some (Val.vObj d) =>
      (match pyFloat ((getKey d "score").getD (Val.vNum 5)) with
       | none => .ok crewDefaults
       | some sc =>
           let r1 := { crewDefaults with score := sc }
           match pyInt ((getKey d "max_score").getD (Val.vNum 10)) with
           | none => .ok r1
           | some ms =>
               .ok { r1 with
                 max_score := Val.vNum (ms : ℚ),
                 grade_letter := (getKey d "grade_letter").getD (Val.vStr "C"),
                 passed :=
                   match getKey d "passed" with
                   | some v => pyTruthy v
                   | none => decide (sc ≥ 5) })
  | some _ => .error "AttributeError"
  | none => .ok crewDefaults

/-- Feedback-stage merge shared by `_combine_results` and
`_combine_mcq_results`: only the qualitative fields are updated. -/
def combineFeedbackStage (r1 : GradeResultR) (feedbackRaw : String) :
    Except String GradeResultR :=
  match crewExtractJson feedbackRaw with
  | some (Val.vObj d) =>
      .ok { r1 with
        mistakes := (getKey d "mistakes").getD (Val.vArr []),
        strengths := (getKey d "strengths").getD (Val.vArr []),
        feedback := (getKey d "feedback").getD (Val.vStr ""),
        recommendations := (getKey d "recommendations").getD (Val.vArr []) }
  | some _ => .error "AttributeError"
  | none => .ok r1

/-- Review-stage merge shared by `_combine_results` and
`_combine_mcq_results`: only `encouragement` is updated. -/
def combineReviewStage (r2 : GradeResultR) (reviewRaw : String) :
    Except String GradeResultR :=
  match crewExtractJson reviewRaw with
  | some (Val.vObj d) =>
      .ok { r2 with
        encouragement := (getKey d "encouragement").getD (Val.vStr "") }
  | some _ => .error "AttributeError"
  | none => .ok r2

/-- Embedding of `GradingCrew._combine_results` on the three raw stage outputs. -/
def combineResults (gradingRaw feedbackRaw reviewRaw : String) :
    Except String GradeResultR :=
  match combineGradingStage gradingRaw with
  | .error e => .error e
  | .ok r1 =>
      match combineFeedbackStage r1 feedbackRaw with
      | .error e => .error e
      | .ok r2 => combineReviewStage r2 reviewRaw

/-- Embedding of `GradingCrew._combine_mcq_results`: the deterministic score, grade
and passed flag are passed through verbatim; agents contribute only the
qualitative fields. -/
def combineMcqResults (score : ℚ) (grade_letter : String) (passed : Bool)
    (feedbackRaw reviewRaw : String) : Except String GradeResultR :=
  match combineFeedbackStage
      { score := score, max_score := Val.vNum 10,
        grade_letter := Val.vStr grade_letter, passed := passed,
        mistakes := Val.vArr [], strengths := Val.vArr [],
        feedback := Val.vStr "", recommendations := Val.vArr [],
        encouragement := Val.vStr "" } feedbackRaw with
  | .error e => .error e
  | .ok r1 => combineReviewStage r1 reviewRaw

/-- Embedding of `GradingService._grade_mcq`: the deterministic comparison is
case-sensitive string equality; `crewOutcome` carries the two agent
outputs when the crew ran (`none`: single mode or the crew raising);
any exception from the crew path is caught and the deterministic
fallback dict returned, so MCQ grading always yields a result. -/
def gsGradeMcq (student_answer correct_answer : String)
    (crewOutcome : Option (String × String)) : GradeResultR :=
  let is_correct := student_answer == correct_answer
  let score : ℚ := if is_correct then 10 else 0
  let grade_letter := if is_correct then "A" else "F"
  let passed := is_correct
  let fallback : GradeResultR :=
    { score := score, max_score := Val.vNum 10,
      grade_letter := Val.vStr grade_letter, passed := passed,
      mistakes :=
        if is_correct then Val.vArr []
        else Val.vArr [Val.vObj
          [("type", Val.vStr "incorrect"),
           ("description", Val.vStr ("Selected " ++ student_answer ++
              " instead of " ++ correct_answer))]],
      strengths :=
        if is_correct then Val.vArr [Val.vStr "Correct answer selected"]
        else Val.vArr [],
      feedback :=
        Val.vStr (if is_correct then "Correct!"
                  else "The correct answer was " ++ correct_answer ++ "."),
      recommendations := Val.vArr [],
      encouragement :=
        Val.vStr (if is_correct then "Great job!"
                  else "Keep studying, you\x27ll get it next time!") }
  match crewOutcome with
  | some (fb, rv) =>
      match combineMcqResults score grade_letter passed fb rv with
      | .ok r => r
      | .error _ => fallback
  | none => fallback

/-! ### Exam-flow grading (`ExamService._grade_answer`) -/

/-- Embedding of `_basic_similarity` (`exam_service.py`): word-set overlap divided by
the size of the larger of the two lowercase whitespace-token sets. -/
def basicSimilarity (text1 text2 : String) : ℚ :=
  let words1 := (pySplit (pyLower text1)).dedup
  let words2 := (pySplit (pyLower text2)).dedup
  if words1.isEmpty ∨ words2.isEmpty then 0
  else ((words1.inter words2).length : ℚ) /
    ((max words1.length words2.length : Nat) : ℚ)

/-- String content of a decoded JSON value as consumed for the
response's feedback fields. -/
def valToStr : Val → String
  | .vStr s => s
  | _ => ""

/-- The multiple-choice branch of `ExamService._grade_answer`: both
labels are stripped and upper-cased before comparison; no model call is
involved. -/
def examGradeMcq (student_answer correct_answer : String) : GradeOut :=
  let is_correct := pyUpper (pyStrip student_answer) == pyUpper (pyStrip correct_answer)
  { score := if is_correct then 10 else 0,
    passed := is_correct,
    feedback :=
      if is_correct then "Correct!"
      else "The correct answer was " ++ correct_answer ++ ".",
    encouragement :=
      if is_correct then "Great job! 🎉"
      else "Keep studying, you\x27ll get there! 💪" }

/-- Embedding of `ExamService._grade_answer`: multiple choice is deterministic; the
written path runs the single-prompt grader and, if every attempt is
exhausted (or anything else raises), degrades to the
`_basic_similarity` score (numeral formatting inside the templated
feedback string is abstracted by `toString`). -/
def examGradeAnswer (question_type : String)
    (student_answer correct_answer : String)
    (attempts : List (Option String)) : GradeOut :=
  if question_type = "multiple_choice" then
    examGradeMcq student_answer correct_answer
  else
    match gradeSinglePrompt attempts with
    | .ok r =>
        { score := r.score, passed := r.passed,
          feedback := valToStr r.feedback,
          encouragement := valToStr r.encouragement }
    | .error _ =>
        let similarity := basicSimilarity student_answer correct_answer
        let score := round1 (similarity * 10)
        { score := score,
          passed := decide (score ≥ 5),
          feedback := "Your answer received a score of " ++ toString score ++ "/10.",
          encouragement := "Keep learning and improving! 📚" }

/-! ### Question-generation fallback (`QuestionService._fallback_generate`) -/

/-- Substring test over character lists, modelling the Python
`needle in haystack` operator on strings. -/
def isSubstr (needle : List Char) : List Char → Bool
  | [] => (litMatch needle []).isSome
  | c :: rest => (litMatch needle (c :: rest)).isSome || isSubstr needle rest

/-- Python `key in data` on a decoded JSON value: key containment for an
object, element membership (string equality against the elements) for
an array, substring test for a string; a non-iterable value (number,
boolean, null) raises `TypeError`, modelled as `none`. -/
def pyIn (key : String) : Val → Option Bool
  | .vObj d => some (hasKey d key)
  | .vArr xs =>
      some (xs.any fun v =>
        match v with
        | .vStr s => s == key
        | _ => false)
  | .vStr s => some (isSubstr key.data s.data)
  | .vNum _ => none
  | .vBool _ => none
  | .vNull => none

/-- The validation of `_fallback_generate`:
`"question_text" in data and "correct_answer" in data` with short
circuit evaluation; `none` models a raised `TypeError`. -/
def fallbackCheck (data : Val) : Option Bool :=
  match pyIn "question_text" data with
  | none => none
  | some false => some false
  | some true => pyIn "correct_answer" data

/-- Embedding of `_fallback_generate`: one entry per attempt, `none` when the
model call or the extraction raised, `some v` the extracted value.  An
attempt whose payload passes the Python `in` check for both
`question_text` and `correct_answer` — key presence for a dict, element
membership for a list, substring for a string — is returned as is
(values may be empty; the payload need not be a dict); a failed check
or a raised `TypeError` counts as a retry; exhaustion raises
`GenerationFailed`. -/
def fallbackGenerate : List (Option Val) → Except String Val
  | [] => .error "Failed to generate question after all retries"
  | a :: rest =>
      match a with
      | some data =>
          match fallbackCheck data with
          | some true => .ok data
          | _ => fallbackGenerate rest
      | none => fallbackGenerate rest

/-! ### Specification-side definitions (for refinement comparisons) -/

/-- Modelled from the spec (§4.3 tier 3) for comparison with
`basicSimilarity`: the Jaccard overlap of the lowercase
whitespace-tokenized word sets — intersection size over union size
(division by zero, both texts empty, yields 0 in `ℚ`). -/
def specJaccard (student correct : String) : ℚ :=
  let w1 := (pySplit (pyLower student)).dedup
  let w2 := (pySplit (pyLower correct)).dedup
  ((w1.inter w2).length : ℚ) / (((w1 ++ w2).dedup.length : Nat) : ℚ)

/-! ### Claim C10 — `current_index` reported by StartExam -/

/-- C10 counterexample: at a concrete `start_exam` call the response
dict reports `current_index = 1`, not the claimed 0 (the stored record
does hold 0). -/
theorem C10_counterexample :
    getKey (startExam "e1" "algorithms" "easy" (some 2) "written" "concept"
      "practice" none { question_text := "Q1", correct_answer := "A1" }).2
      "current_index" = some (Val.vNum 1) ∧ (1 : ℚ) ≠ 0 := by
  constructor
  · rfl
  · decide

/-- C10 amended: the freshly created exam record stores
`current_index = 0` (the count of answered questions), while the
`start_exam` response reports the hard-coded value 1 (a 1-based display
position of the current question). -/
theorem C10_start_index (eid t d : String) (nq : Option Nat)
    (qt cat mode : String) (tls : Option Nat) (q : QuestionPayload) :
    ((startExam eid t d nq qt cat mode tls q).1).current_index = 0 ∧
    getKey (startExam eid t d nq qt cat mode tls q).2 "current_index" =
      some (Val.vNum 1) := by
  exact ⟨rfl, rfl⟩

/-! ### Claim C5 — hint penalty application -/

/-- Evaluation rule for one-decimal rounding at a known integer. -/
lemma round1_eq {x : ℚ} (n : ℤ) (h1 : (n : ℚ) ≤ 10 * x + 1/2)
    (h2 : 10 * x + 1/2 < (n : ℚ) + 1) : round1 x = (n : ℚ) / 10 := by
  unfold round1
  rw [round_eq, Int.floor_eq_iff.mpr ⟨h1, h2⟩]

/-- C5 counterexample: with 0 issued hints the code passes the raw score
through unrounded, while the claimed formula
`round(raw × max(0, 1 − min(h,3)·0.15), 1)` would round it: at
`raw = 7.23` the code yields 7.23 but the formula yields 7.2. -/
theorem C5_counterexample :
    applyHintPenalty (723/100) [] = 723/100 ∧
    round1 ((723/100) * max 0 (1 - ((min 0 3 : Nat) : ℚ) * (15/100))) = 72/10 ∧
    (723/100 : ℚ) ≠ 72/10 := by
  refine ⟨rfl, ?_, by norm_num⟩
  have hm : (min 0 3 : Nat) = 0 := rfl
  rw [hm]
  have hmax : (max 0 (1 - ((0 : Nat) : ℚ) * (15/100))) = 1 := by norm_num
  rw [hmax]
  have := round1_eq (x := (723/100 : ℚ) * 1) 72 (by norm_num) (by norm_num)
  rw [this]
  norm_num

/-- C5 amended: for a question with at most 3 issued hints (the cap the
hint service enforces), submitting with at least one hint applies
exactly `round(raw × max(0, 1 − min(h,3)·0.15), 1)`; submitting after 3
hints yields `round(raw × 0.55, 1)`; submitting with 0 hints passes the
raw score through unchanged (without rounding). -/
theorem C5_hint_penalty (raw : ℚ) (hints : List String)
    (hcap : hints.length ≤ 3) :
    (hints = [] → applyHintPenalty raw hints = raw) ∧
    (hints ≠ [] →
      applyHintPenalty raw hints =
        round1 (raw * max 0 (1 - ((min hints.length 3 : Nat) : ℚ) * (15/100)))) ∧
    (hints.length = 3 → applyHintPenalty raw hints = round1 (raw * (55/100))) := by
  refine ⟨?_, ?_, ?_⟩
  · intro h; subst h; rfl
  · intro h
    rw [Nat.min_eq_left hcap]
    unfold applyHintPenalty HINT_PENALTY_PER_HINT
    rw [if_neg (by simpa [List.isEmpty_iff] using h)]
  · intro h3
    unfold applyHintPenalty HINT_PENALTY_PER_HINT
    rw [if_neg (by simp [List.isEmpty_iff, ← List.length_eq_zero]; omega), h3]
    norm_num

/-- C5 witness: the theorem applied at raw score 8 and three issued
hints. -/
theorem C5_hint_penalty_witness :
    (["h1", "h2", "h3"] : List String).length ≤ 3 ∧
    applyHintPenalty 8 ["h1", "h2", "h3"] = round1 (8 * (55/100)) :=
  ⟨by decide, (C5_hint_penalty 8 ["h1", "h2", "h3"] (by decide)).2.2 (by decide)⟩

/-! ### Claim C6 — similarity fallback -/

/-- C6 counterexample: on student answer `"a b"` against correct answer
`"b c"` the exhausted-retries fallback scores 5.0 (overlap over the
larger set size), while the claimed Jaccard formula yields 3.3. -/
theorem C6_counterexample :
    (examGradeAnswer "written" "a b" "b c" []).score = 5 ∧
    round1 (specJaccard "a b" "b c" * 10) = 33/10 ∧
    (5 : ℚ) ≠ 33/10 := by
  have e1 : (pySplit (pyLower "a b")).dedup = ["a", "b"] := by decide
  have e2 : (pySplit (pyLower "b c")).dedup = ["b", "c"] := by decide
  have e3 : (["a", "b"] : List String).inter ["b", "c"] = ["b"] := by decide
  have e4 : ((["a", "b"] : List String) ++ ["b", "c"]).dedup = ["a", "b", "c"] := by
    decide
  have hsim : basicSimilarity "a b" "b c" = 1/2 := by
    simp only [basicSimilarity]
    rw [e1, e2, e3]
    norm_num
  have hjac : specJaccard "a b" "b c" = 1/3 := by
    simp only [specJaccard]
    rw [e1, e2, e3, e4]
    norm_num
  refine ⟨?_, ?_, by norm_num⟩
  · have hscore : (examGradeAnswer "written" "a b" "b c" []).score =
        round1 (basicSimilarity "a b" "b c" * 10) := rfl
    rw [hscore, hsim, round1_eq (x := (1/2 : ℚ) * 10) 50 (by norm_num) (by norm_num)]
    norm_num
  · rw [hjac, round1_eq (x := (1/3 : ℚ) * 10) 33 (by norm_num) (by norm_num)]
    norm_num

/-- Lower bound of one-decimal rounding. -/
lemma round1_nonneg {x : ℚ} (h : 0 ≤ x) : 0 ≤ round1 x := by
  unfold round1
  have hz : (0 : ℤ) ≤ round (10 * x) := by
    rw [round_eq]
    calc (0 : ℤ) = ⌊(1/2 : ℚ)⌋ := by norm_num
    _ ≤ ⌊10 * x + 1/2⌋ := Int.floor_le_floor (by linarith)
  have hz' : (0 : ℚ) ≤ ((round (10 * x) : ℤ) : ℚ) := by exact_mod_cast hz
  positivity

/-- Upper bound of one-decimal rounding. -/
lemma round1_le_ten {x : ℚ} (h : x ≤ 10) : round1 x ≤ 10 := by
  unfold round1
  have hz : round (10 * x) ≤ 100 := by
    rw [round_eq]
    calc ⌊10 * x + 1/2⌋ ≤ ⌊(100 : ℚ) + 1/2⌋ := Int.floor_le_floor (by linarith)
    _ = 100 := by norm_num
  have hz' : ((round (10 * x) : ℤ) : ℚ) ≤ 100 := by exact_mod_cast hz
  rw [div_le_iff₀ (by norm_num : (0 : ℚ) < 10)]
  linarith

/-- The word-overlap quotient lies in `[0, 1]` for any two word lists. -/
lemma simVal_bounds (w1 w2 : List String) :
    0 ≤ (if w1.isEmpty ∨ w2.isEmpty then (0 : ℚ)
         else ((w1.inter w2).length : ℚ) / ((max w1.length w2.length : Nat) : ℚ)) ∧
    (if w1.isEmpty ∨ w2.isEmpty then (0 : ℚ)
         else ((w1.inter w2).length : ℚ) / ((max w1.length w2.length : Nat) : ℚ)) ≤ 1 := by
  split
  · exact ⟨le_refl 0, by norm_num⟩
  · rename_i hne
    constructor
    · positivity
    · rw [div_le_one]
      · have h1 : (w1.inter w2).length ≤ w1.length := by
          simpa [List.inter] using
            (List.filter_sublist (l := w1) (p := fun a => w2.elem a)).length_le
        have h2 : w1.length ≤ max w1.length w2.length := le_max_left _ _
        exact_mod_cast le_trans h1 h2
      · have hne1 : w1 ≠ [] := by
          intro hnil
          exact hne (Or.inl (by rw [hnil]; rfl))
        have hpos : 0 < w1.length := List.length_pos.mpr hne1
        have : 0 < max w1.length w2.length :=
          lt_of_lt_of_le hpos (le_max_left _ _)
        exact_mod_cast this

/-- The similarity value of `_basic_similarity` lies in `[0, 1]`. -/
lemma basicSimilarity_bounds (text1 text2 : String) :
    0 ≤ basicSimilarity text1 text2 ∧ basicSimilarity text1 text2 ≤ 1 :=
  simVal_bounds (pySplit (pyLower text1)).dedup (pySplit (pyLower text2)).dedup

/-- C6 amended: when every model attempt is exhausted, the fallback
score equals the overlap of the lowercase whitespace-tokenized word
sets divided by the size of the larger set (not the Jaccard union),
scaled to [0, 10] and rounded to one decimal; it lies in [0, 10] and
`passed ⇔ score ≥ 5`. -/
theorem C6_similarity_fallback (student correct : String) :
    (examGradeAnswer "written" student correct []).score =
      round1 ((if (pySplit (pyLower student)).dedup.isEmpty ∨
                  (pySplit (pyLower correct)).dedup.isEmpty then (0 : ℚ)
               else (((pySplit (pyLower student)).dedup.inter
                  (pySplit (pyLower correct)).dedup).length : ℚ) /
                 ((max (pySplit (pyLower student)).dedup.length
                   (pySplit (pyLower correct)).dedup.length : Nat) : ℚ)) * 10) ∧
    0 ≤ (examGradeAnswer "written" student correct []).score ∧
    (examGradeAnswer "written" student correct []).score ≤ 10 ∧
    ((examGradeAnswer "written" student correct []).passed = true ↔
      5 ≤ (examGradeAnswer "written" student correct []).score) := by
  have hscore : (examGradeAnswer "written" student correct []).score =
      round1 (basicSimilarity student correct * 10) := rfl
  have hpassed : (examGradeAnswer "written" student correct []).passed =
      decide (round1 (basicSimilarity student correct * 10) ≥ 5) := rfl
  have hb := basicSimilarity_bounds student correct
  refine ⟨hscore, ?_, ?_, ?_⟩
  · rw [hscore]
    exact round1_nonneg (by nlinarith [hb.1])
  · rw [hscore]
    exact round1_le_ten (by nlinarith [hb.2])
  · rw [hscore, hpassed]
    simp [ge_iff_le]

/-! ### Claim C4 — MCQ grading determinism -/

/-- C4 counterexample: in `GradingService._grade_mcq` the labels `"b"`
and `"B"` match case-insensitively, yet the deterministic score is 0.0
because the comparison is case-sensitive. -/
theorem C4_counterexample :
    (gsGradeMcq "b" "B" none).score = 0 ∧
    pyUpper (pyStrip "b") = pyUpper (pyStrip "B") ∧
    (0 : ℚ) ≠ 10 := by
  refine ⟨by decide, by decide, by decide⟩

/-! ### Claim C2 — server-side answer custody -/

/-- C2: every client-visible payload for a pending question — the
sanitized payload used for the question of `start_exam` and the
`next_question` of `submit_answer`, and the redaction of pending records
in `get_exam` — carries neither a `correct_answer` nor an `explanation`
key. -/
theorem C2_answer_custody :
    (∀ (q : QuestionPayload) (qt cat : String),
        getKey (sanitizeQuestion q qt cat) "correct_answer" = none ∧
        getKey (sanitizeQuestion q qt cat) "explanation" = none) ∧
    (∀ r : QRecord, r.pending = true →
        getKey (redactQuestion r) "correct_answer" = none ∧
        getKey (redactQuestion r) "explanation" = none) ∧
    (∀ eid t d nq qt cat mode tls q,
        getKey (startExam eid t d nq qt cat mode tls q).2 "question" =
          some (Val.vObj (sanitizeQuestion q qt cat))) ∧
    (∀ e ans gr nqp e' resp,
        submitAnswer e ans gr nqp = .ok (e', resp) →
        getKey resp "next_question" = none ∨
        ∃ nq, nqp = some nq ∧
          getKey resp "next_question" =
            some (Val.vObj (sanitizeQuestion nq e.question_type e.category))) := by
  refine ⟨?_, ?_, ?_, ?_⟩
  · intro q qt cat
    rcases q with ⟨qtext, qans, qexp, qopts, qcs, qtop, qdiff⟩
    cases qopts <;> cases qcs <;>
      · constructor <;>
          · dsimp only [sanitizeQuestion]
            first
            | rfl
            | (split_ifs <;> rfl)
  · intro r hr
    constructor <;> (unfold redactQuestion; rw [if_pos hr]) <;> rfl
  · intro eid t d nq qt cat mode tls q
    rfl
  · intro e ans gr nqp e' resp h
    unfold submitAnswer at h
    by_cases hst : e.status = "completed"
    · rw [if_pos hst] at h
      exact absurd h (by simp)
    · rw [if_neg hst] at h
      cases hfp : findLastPending e.questions with
      | none => rw [hfp] at h; exact absurd h (by simp)
      | some ip =>
          obtain ⟨idx, pq⟩ := ip
          rw [hfp] at h
          simp only [submitWithPending] at h
          by_cases hge : e.current_index + 1 ≥ e.total_questions
          · rw [if_pos hge] at h
            simp only [Except.ok.injEq, Prod.mk.injEq] at h
            obtain ⟨-, hr⟩ := h
            subst hr
            left
            rfl
          · rw [if_neg hge] at h
            cases nqp with
            | none => exact absurd h (by simp)
            | some nq =>
                simp only [Except.ok.injEq, Prod.mk.injEq] at h
                obtain ⟨-, hr⟩ := h
                subst hr
                right
                exact ⟨nq, rfl, rfl⟩

/-- C2 witness: the submit-path conjunct applied to a concrete
non-final submission. -/
theorem C2_answer_custody_witness :
    getKey
      (match submitAnswer
          (startExam "e" "t" "d" (some 2) "written" "c" "practice" none
            { question_text := "q1", correct_answer := "a1" }).1
          "ans" { score := 8, passed := true }
          (some { question_text := "q2", correct_answer := "a2" }) with
        | .ok (_, r) => r
        | .error _ => []) "next_question" = none ∨
    ∃ nq, (some { question_text := "q2", correct_answer := "a2" } :
          Option QuestionPayload) = some nq ∧
      getKey
        (match submitAnswer
            (startExam "e" "t" "d" (some 2) "written" "c" "practice" none
              { question_text := "q1", correct_answer := "a1" }).1
            "ans" { score := 8, passed := true }
            (some { question_text := "q2", correct_answer := "a2" }) with
          | .ok (_, r) => r
          | .error _ => []) "next_question" =
        some (Val.vObj (sanitizeQuestion nq
          ((startExam "e" "t" "d" (some 2) "written" "c" "practice" none
            { question_text := "q1", correct_answer := "a1" }).1).question_type
          ((startExam "e" "t" "d" (some 2) "written" "c" "practice" none
            { question_text := "q1", correct_answer := "a1" }).1).category)) :=
  C2_answer_custody.2.2.2
    (startExam "e" "t" "d" (some 2) "written" "c" "practice" none
      { question_text := "q1", correct_answer := "a1" }).1
    "ans" { score := 8, passed := true }
    (some { question_text := "q2", correct_answer := "a2" }) _ _ rfl

/-! ### Claim C7 — extractor stage order -/

/-- C7 counterexample: on a text whose fenced block holds an
unparsable candidate while the whole text starts with a parseable
object, `crew._extract_json` errors instead of falling through to the
balanced-brace stage that would succeed. -/
theorem C7_counterexample :
    crewExtractJson "\x7b\"a\": 1\x7d ```json \x7bbad\x7d ```" = none ∧
    braceSearch "\x7b\"a\": 1\x7d ```json \x7bbad\x7d ```" = some "\x7b\"a\": 1\x7d" ∧
    loads "\x7b\"a\": 1\x7d" = some (Val.vObj [("a", Val.vNum 1)]) := by
  exact ⟨rfl, rfl, rfl⟩

/-- C7 amended: the extractor consults its stages in preference order —
fenced block, first balanced-brace object, whole trimmed text — but a
stage falls through only when its pattern finds no candidate; a found
candidate that fails to decode makes extraction fail immediately.  The
three spec round-trip inputs all extract successfully. -/
theorem C7_extractor_order (text : String) :
    (∀ g, fenceSearch text = some g → crewExtractJson text = loads g) ∧
    (fenceSearch text = none → ∀ m, braceSearch text = some m →
        crewExtractJson text = loads m) ∧
    (fenceSearch text = none → braceSearch text = none →
        crewExtractJson text = loads (pyStrip text)) ∧
    crewExtractJson "```json\n\x7b\"a\":1\x7d\n```" = some (Val.vObj [("a", Val.vNum 1)]) ∧
    crewExtractJson "Final Answer:\n\x7b\"a\":1\x7d" = some (Val.vObj [("a", Val.vNum 1)]) ∧
    crewExtractJson "\x7b\"a\":1\x7d" = some (Val.vObj [("a", Val.vNum 1)]) := by
  refine ⟨?_, ?_, ?_, rfl, rfl, rfl⟩
  · intro g hg
    unfold crewExtractJson
    rw [hg]
  · intro hf m hm
    unfold crewExtractJson
    rw [hf, hm]
  · intro hf hm
    unfold crewExtractJson
    rw [hf, hm]

/-- C7 witness: the fenced-block conjunct applied at a concrete fenced
input. -/
theorem C7_extractor_order_witness :
    crewExtractJson "```json \x7b\"k\": 2\x7d ```" = loads "\x7b\"k\": 2\x7d" :=
  (C7_extractor_order "```json \x7b\"k\": 2\x7d ```").1 "\x7b\"k\": 2\x7d" rfl

/-! ### Claim C8 — question-generation fallback validation -/

/-- C8 counterexample: an extracted payload whose `question_text` and
`correct_answer` are both empty strings is accepted by the fallback loop
on its first attempt — presence is all that is validated — and so is a
decoded top-level array containing the two key names, which has no keys
at all (Python `in` on a list is element membership). -/
theorem C8_counterexample :
    fallbackGenerate
      [some (Val.vObj [("question_text", Val.vStr ""), ("correct_answer", Val.vStr "")]),
       none, none] =
      .ok (Val.vObj [("question_text", Val.vStr ""), ("correct_answer", Val.vStr "")]) ∧
    getKey [("question_text", Val.vStr ""), ("correct_answer", Val.vStr "")]
      "question_text" = some (Val.vStr "") ∧
    fallbackGenerate
      [some (Val.vArr [Val.vStr "question_text", Val.vStr "correct_answer"]),
       none, none] =
      .ok (Val.vArr [Val.vStr "question_text", Val.vStr "correct_answer"]) := by
  exact ⟨rfl, rfl, rfl⟩

/-- C8 amended: each fallback attempt validates only that
`question_text` and `correct_answer` occur in the decoded payload in
the Python `in` sense — key presence for an object (values may be
empty), element membership for an array, substring for a string; an
attempt failing that check, or raising, counts as a retry; the loop
errors exactly when no attempt passes the check. -/
theorem C8_fallback_validation (attempts : List (Option Val)) :
    (∀ d, fallbackGenerate attempts = .ok d →
        fallbackCheck d = some true ∧ some d ∈ attempts) ∧
    ((∀ a ∈ attempts, ∀ d, a = some d → fallbackCheck d ≠ some true) →
      fallbackGenerate attempts =
        .error "Failed to generate question after all retries") ∧
    (∀ d, fallbackCheck (Val.vObj d) =
        some (hasKey d "question_text" && hasKey d "correct_answer")) := by
  refine ⟨?_, ?_, ?_⟩
  · induction attempts with
    | nil =>
        intro d h
        exact absurd h (by simp [fallbackGenerate])
    | cons a rest ih =>
        intro d h
        match a with
        | none =>
            have h' : fallbackGenerate rest = .ok d := h
            obtain ⟨h1, h2⟩ := ih d h'
            exact ⟨h1, by simp [h2]⟩
        | some data =>
            cases hchk : fallbackCheck data with
            | none =>
                simp only [fallbackGenerate, hchk] at h
                obtain ⟨h1, h2⟩ := ih d h
                exact ⟨h1, by simp [h2]⟩
            | some b =>
                cases b with
                | false =>
                    simp only [fallbackGenerate, hchk] at h
                    obtain ⟨h1, h2⟩ := ih d h
                    exact ⟨h1, by simp [h2]⟩
                | true =>
                    simp only [fallbackGenerate, hchk, Except.ok.injEq] at h
                    subst h
                    exact ⟨hchk, by simp⟩
  · induction attempts with
    | nil => intro _; rfl
    | cons a rest ih =>
        intro hall
        have hrest := ih (fun b hb d hd => hall b (by simp [hb]) d hd)
        match a with
        | none => exact hrest
        | some data =>
            have hne := hall (some data) (by simp) data rfl
            cases hchk : fallbackCheck data with
            | none =>
                simp only [fallbackGenerate, hchk]
                exact hrest
            | some b =>
                cases b with
                | false =>
                    simp only [fallbackGenerate, hchk]
                    exact hrest
                | true => exact absurd hchk hne
  · intro d
    cases hq : hasKey d "question_text" <;>
      cases hc : hasKey d "correct_answer" <;>
      simp [fallbackCheck, pyIn, hq, hc]

/-- C8 witness: three raising attempts exhaust the retries and yield the
`GenerationFailed` error. -/
theorem C8_fallback_validation_witness :
    fallbackGenerate [none, none, none] =
      .error "Failed to generate question after all retries" :=
  (C8_fallback_validation [none, none, none]).2.1
    (by intro a ha d hd; simp at ha; simp [ha] at hd)

/-! ### Claim C3 — score bounds and pass threshold -/

/-- Any successful feedback-stage merge preserves score and passed. -/
lemma combineFeedbackStage_ok {r1 : GradeResultR} {raw : String} {r : GradeResultR}
    (h : combineFeedbackStage r1 raw = .ok r) :
    r.score = r1.score ∧ r.passed = r1.passed := by
  unfold combineFeedbackStage at h
  split at h
  · cases h; exact ⟨rfl, rfl⟩
  · exact absurd h (by simp)
  · cases h; exact ⟨rfl, rfl⟩

/-- Any successful review-stage merge preserves score and passed. -/
lemma combineReviewStage_ok {r2 : GradeResultR} {raw : String} {r : GradeResultR}
    (h : combineReviewStage r2 raw = .ok r) :
    r.score = r2.score ∧ r.passed = r2.passed := by
  unfold combineReviewStage at h
  split at h
  · cases h; exact ⟨rfl, rfl⟩
  · exact absurd h (by simp)
  · cases h; exact ⟨rfl, rfl⟩

/-- A successful `_combine_results` carries the grading stage's score
and passed flag through unchanged. -/
lemma combineResults_ok {g fb rv : String} {r : GradeResultR}
    (h : combineResults g fb rv = .ok r) :
    ∃ r1, combineGradingStage g = .ok r1 ∧
      r.score = r1.score ∧ r.passed = r1.passed := by
  unfold combineResults at h
  split at h
  · exact absurd h (by simp)
  · rename_i r1 h1
    split at h
    · exact absurd h (by simp)
    · rename_i r2 h2
      obtain ⟨hs2, hp2⟩ := combineFeedbackStage_ok h2
      obtain ⟨hs3, hp3⟩ := combineReviewStage_ok h
      exact ⟨r1, h1, hs3.trans hs2, hp3.trans hp2⟩

/-- A successful `_combine_mcq_results` carries the deterministic score
and passed flag through unchanged. -/
lemma combineMcqResults_ok {score : ℚ} {gl : String} {passed : Bool}
    {fb rv : String} {r : GradeResultR}
    (h : combineMcqResults score gl passed fb rv = .ok r) :
    r.score = score ∧ r.passed = passed := by
  unfold combineMcqResults at h
  split at h
  · exact absurd h (by simp)
  · rename_i r1 h1
    obtain ⟨hs2, hp2⟩ := combineFeedbackStage_ok h1
    obtain ⟨hs3, hp3⟩ := combineReviewStage_ok h
    exact ⟨hs3.trans hs2, hp3.trans hp2⟩

/-- The deterministic projections of `GradingService._grade_mcq`: the
score and passed flag never depend on the crew outcome. -/
lemma gsGradeMcq_det (s c : String) (crew : Option (String × String)) :
    (gsGradeMcq s c crew).score = (if s == c then (10 : ℚ) else 0) ∧
    (gsGradeMcq s c crew).passed = (s == c) := by
  unfold gsGradeMcq
  cases crew with
  | none => exact ⟨rfl, rfl⟩
  | some pr =>
      obtain ⟨fb, rv⟩ := pr
      dsimp only
      constructor
      · split
        · rename_i r' hr'
          exact (combineMcqResults_ok hr').1
        · rfl
      · split
        · rename_i r' hr'
          exact (combineMcqResults_ok hr').2
        · rfl

/-- C4 amended: the exam-flow MCQ path compares the whitespace-stripped
labels case-insensitively, while the standalone grading-service MCQ path
compares them case-sensitively; on both, the score is binary 10/0 and
`passed` mirrors correctness, independent of any model/crew outcome —
so MCQ grading always returns its deterministic score. -/
theorem C4_mcq_grading (s c : String) (crew : Option (String × String))
    (attempts : List (Option String)) :
    ((examGradeAnswer "multiple_choice" s c attempts).score =
      if pyUpper (pyStrip s) = pyUpper (pyStrip c) then 10 else 0) ∧
    ((examGradeAnswer "multiple_choice" s c attempts).passed = true ↔
      pyUpper (pyStrip s) = pyUpper (pyStrip c)) ∧
    ((gsGradeMcq s c crew).score = if s = c then 10 else 0) ∧
    ((gsGradeMcq s c crew).passed = true ↔ s = c) := by
  obtain ⟨hs', hp'⟩ := gsGradeMcq_det s c crew
  have he : examGradeAnswer "multiple_choice" s c attempts = examGradeMcq s c := rfl
  have hes : (examGradeMcq s c).score =
      (if pyUpper (pyStrip s) == pyUpper (pyStrip c) then (10 : ℚ) else 0) := rfl
  have hep : (examGradeMcq s c).passed =
      (pyUpper (pyStrip s) == pyUpper (pyStrip c)) := rfl
  refine ⟨?_, ?_, ?_, ?_⟩
  · rw [he, hes]; simp [beq_iff_eq]
  · rw [he, hep]; simp [beq_iff_eq]
  · rw [hs']; simp [beq_iff_eq]
  · rw [hp']; simp [beq_iff_eq]

/-- Bounds of the normalized single-prompt result. -/
lemma normalizeLlm_bounds {data : List (String × Val)} {r : GradeResultR}
    (h : normalizeLlm data = some r) : 0 ≤ r.score ∧ r.score ≤ 10 := by
  unfold normalizeLlm at h
  split at h
  · exact absurd h (by simp)
  · split at h
    · exact absurd h (by simp)
    · cases h
      exact ⟨le_max_left _ _, max_le (by norm_num) (min_le_left _ _)⟩

/-- With no explicit `passed` key, the normalized single-prompt result
is pass-consistent with its (clamped) score. -/
lemma normalizeLlm_passed {data : List (String × Val)} {r : GradeResultR}
    (hpassed : getKey data "passed" = none)
    (h : normalizeLlm data = some r) : (r.passed = true ↔ 5 ≤ r.score) := by
  unfold normalizeLlm at h
  split at h
  · exact absurd h (by simp)
  · split at h
    · exact absurd h (by simp)
    · rename_i sc hsc
      rw [hpassed] at h
      cases h
      simp only [decide_eq_true_eq, ge_iff_le]
      constructor
      · intro h5
        exact le_trans (le_min (by norm_num) h5) (le_max_right _ _)
      · intro h5
        rcases le_max_iff.mp h5 with h' | h'
        · norm_num at h'
        · exact le_trans h' (min_le_right _ _)

/-- C3 counterexample: the crew grading path returns the model's score
verbatim — `{"score": 15}` produces a GradeResult with score 15 > 10 —
and the single-prompt parser takes an explicit `passed` flag verbatim —
`{"score": 7, "passed": false}` yields `passed = false` with score
7 ≥ 5. -/
theorem C3_counterexample :
    (combineResults "\x7b\"score\": 15\x7d" "" "").toOption.map
      (fun r => r.score) = some 15 ∧
    ¬ ((15 : ℚ) ≤ 10) ∧
    (parseLlmResponse "\x7b\"score\": 7, \"passed\": false\x7d").map
      (fun r => (r.score, r.passed)) = some (7, false) ∧
    (5 : ℚ) ≤ 7 := by
  exact ⟨rfl, by norm_num, rfl, by norm_num⟩

/-- C3 amended: the score bounds 0 ≤ s ≤ 10 hold on the single-prompt,
MCQ and similarity paths, but the crew grading stage passes the model's
score through unclamped; `passed ⇔ s ≥ 5` holds on the MCQ and
similarity paths and, for the model-backed paths, whenever the decoded
output has no explicit `passed` key (an explicit value is taken
verbatim; on the crew path a well-typed `max_score` is also needed,
since a conversion error there leaves `passed` at its default). -/
theorem C3_score_invariants :
    (∀ raw r, parseLlmResponse raw = some r → 0 ≤ r.score ∧ r.score ≤ 10) ∧
    (∀ raw d r, loads (llmStage raw) = some (Val.vObj d) →
        getKey d "passed" = none → parseLlmResponse raw = some r →
        (r.passed = true ↔ 5 ≤ r.score)) ∧
    (∀ s c crew, 0 ≤ (gsGradeMcq s c crew).score ∧
        (gsGradeMcq s c crew).score ≤ 10 ∧
        ((gsGradeMcq s c crew).passed = true ↔ 5 ≤ (gsGradeMcq s c crew).score)) ∧
    (∀ s c, 0 ≤ (examGradeMcq s c).score ∧ (examGradeMcq s c).score ≤ 10 ∧
        ((examGradeMcq s c).passed = true ↔ 5 ≤ (examGradeMcq s c).score)) ∧
    (∀ s c, 0 ≤ (examGradeAnswer "written" s c []).score ∧
        (examGradeAnswer "written" s c []).score ≤ 10 ∧
        ((examGradeAnswer "written" s c []).passed = true ↔
          5 ≤ (examGradeAnswer "written" s c []).score)) ∧
    (∀ g fb rv d r, crewExtractJson g = some (Val.vObj d) →
        getKey d "passed" = none →
        (pyInt ((getKey d "max_score").getD (Val.vNum 10))).isSome = true →
        combineResults g fb rv = .ok r → (r.passed = true ↔ 5 ≤ r.score)) := by
  refine ⟨?_, ?_, ?_, ?_, ?_, ?_⟩
  · intro raw r h
    unfold parseLlmResponse at h
    split at h
    · exact normalizeLlm_bounds h
    · exact absurd h (by simp)
    · exact absurd h (by simp)
  · intro raw d r hl hpassed h
    unfold parseLlmResponse at h
    split at h
    · rename_i data heq
      rw [hl] at heq
      injection heq with heq'
      injection heq' with heqd
      subst heqd
      exact normalizeLlm_passed hpassed h
    · exact absurd h (by simp)
    · exact absurd h (by simp)
  · intro s c crew
    obtain ⟨hs', hp'⟩ := gsGradeMcq_det s c crew
    refine ⟨?_, ?_, ?_⟩
    · rw [hs']
      by_cases hsc : s = c <;> norm_num [beq_iff_eq, hsc]
    · rw [hs']
      by_cases hsc : s = c <;> norm_num [beq_iff_eq, hsc]
    · rw [hp', hs']
      by_cases hsc : s = c <;> norm_num [beq_iff_eq, hsc]
  · intro s c
    have hs' : (examGradeMcq s c).score =
        (if pyUpper (pyStrip s) == pyUpper (pyStrip c) then (10 : ℚ) else 0) := rfl
    have hp' : (examGradeMcq s c).passed =
        (pyUpper (pyStrip s) == pyUpper (pyStrip c)) := rfl
    refine ⟨?_, ?_, ?_⟩
    · rw [hs']
      by_cases hsc : pyUpper (pyStrip s) = pyUpper (pyStrip c) <;>
        norm_num [beq_iff_eq, hsc]
    · rw [hs']
      by_cases hsc : pyUpper (pyStrip s) = pyUpper (pyStrip c) <;>
        norm_num [beq_iff_eq, hsc]
    · rw [hp', hs']
      by_cases hsc : pyUpper (pyStrip s) = pyUpper (pyStrip c) <;>
        norm_num [beq_iff_eq, hsc]
  · intro s c
    have hscore : (examGradeAnswer "written" s c []).score =
        round1 (basicSimilarity s c * 10) := rfl
    have hpassed : (examGradeAnswer "written" s c []).passed =
        decide (round1 (basicSimilarity s c * 10) ≥ 5) := rfl
    have hb := basicSimilarity_bounds s c
    refine ⟨?_, ?_, ?_⟩
    · rw [hscore]; exact round1_nonneg (by nlinarith [hb.1])
    · rw [hscore]; exact round1_le_ten (by nlinarith [hb.2])
    · rw [hscore, hpassed]; simp [ge_iff_le]
  · intro g fb rv d r hg hpassed hms hok
    obtain ⟨r1, hstage, hs1, hp1⟩ := combineResults_ok hok
    unfold combineGradingStage at hstage
    rw [hg] at hstage
    dsimp only at hstage
    cases hpf : pyFloat ((getKey d "score").getD (Val.vNum 5)) with
    | none =>
        rw [hpf] at hstage
        cases hstage
        rw [hs1, hp1]
        unfold crewDefaults
        norm_num
    | some sc =>
        rw [hpf] at hstage
        cases hmsv : pyInt ((getKey d "max_score").getD (Val.vNum 10)) with
        | none => rw [hmsv] at hms; exact absurd hms (by simp)
        | some ms =>
            rw [hmsv, hpassed] at hstage
            cases hstage
            rw [hs1, hp1]
            simp only [decide_eq_true_eq, ge_iff_le]

/-- C3 witness: the crew-path pass-consistency conjunct applied at a
decoded grading output carrying no `passed` key. -/
theorem C3_score_invariants_witness :
    ((combineResults "\x7b\"score\": 4\x7d" "" "").toOption.map
      (fun r => (r.passed = true ↔ 5 ≤ r.score : Prop))).getD False := by
  have hok : combineResults "\x7b\"score\": 4\x7d" "" "" = .ok
      { score := 4, max_score := Val.vNum 10,
        grade_letter := Val.vStr "C", passed := false,
        mistakes := Val.vArr [], strengths := Val.vArr [],
        feedback := Val.vStr "", recommendations := Val.vArr [],
        encouragement := Val.vStr "" } := rfl
  have h4 := C3_score_invariants.2.2.2.2.2 "\x7b\"score\": 4\x7d" "" ""
    [("score", Val.vNum 4)] _ rfl rfl rfl hok
  rw [hok]
  exact h4

/-! ### Claim C9 — hint issuance failure conditions -/

/-- C9: issuing a hint fails exactly when the exam is missing, not
in progress, in timed mode, has no pending question, or already has 3
hints on the pending question; and a model failure alone never fails
the call — the fixed generic hint keyed by the hint index is issued. -/
theorem C9_hint_failures :
    (∀ llm, getHint none llm = .error "Exam not found") ∧
    (∀ e llm, (∃ pr, getHint (some e) llm = .ok pr) ↔
        (e.status = "in_progress" ∧ e.mode ≠ "timed" ∧
         ∃ i q, findFirstPending e.questions = some (i, q) ∧ q.hints.length < 3)) ∧
    (∀ e i q, e.status = "in_progress" → e.mode ≠ "timed" →
        findFirstPending e.questions = some (i, q) → q.hints.length < 3 →
        ∃ e', getHint (some e) none =
          .ok ({ hint := fallbackHints (q.hints.length + 1),
                 hints_used := e.hints_used + 1,
                 score_penalty :=
                   round2 (((q.hints.length + 1 : Nat) : ℚ) * HINT_PENALTY_PER_HINT) },
               e')) := by
  have hbody : ∀ e llm i q, e.status = "in_progress" → e.mode ≠ "timed" →
      findFirstPending e.questions = some (i, q) → q.hints.length < 3 →
      getHint (some e) llm =
        .ok ({ hint := generateHint llm (q.hints.length + 1),
               hints_used := e.hints_used + 1,
               score_penalty :=
                 round2 (((q.hints.length + 1 : Nat) : ℚ) * HINT_PENALTY_PER_HINT) },
             { e with
               questions := e.questions.set i
                 { q with hints := q.hints ++ [generateHint llm (q.hints.length + 1)] },
               hints_used := e.hints_used + 1 }) := by
    intro e llm i q hst hmode hfp hlen
    unfold getHint
    dsimp only
    rw [if_neg (by simp [hst]), if_neg hmode, hfp]
    dsimp only
    rw [if_neg (by unfold MAX_HINTS_PER_QUESTION; omega)]
  refine ⟨fun llm => rfl, ?_, ?_⟩
  · intro e llm
    constructor
    · rintro ⟨pr, h⟩
      unfold getHint at h
      dsimp only at h
      by_cases hst : e.status = "in_progress"
      · by_cases hmode : e.mode = "timed"
        · rw [if_neg (by simp [hst]), if_pos hmode] at h
          exact absurd h (by simp)
        · cases hfp : findFirstPending e.questions with
          | none =>
              rw [if_neg (by simp [hst]), if_neg hmode, hfp] at h
              exact absurd h (by simp)
          | some iq =>
              obtain ⟨i, q⟩ := iq
              by_cases hlen : q.hints.length < 3
              · exact ⟨hst, hmode, i, q, rfl, hlen⟩
              · rw [if_neg (by simp [hst]), if_neg hmode, hfp] at h
                dsimp only at h
                rw [if_pos (by unfold MAX_HINTS_PER_QUESTION; omega)] at h
                exact absurd h (by simp)
      · rw [if_pos (by simp [hst])] at h
        exact absurd h (by simp)
    · rintro ⟨hst, hmode, i, q, hfp, hlen⟩
      exact ⟨_, hbody e llm i q hst hmode hfp hlen⟩
  · intro e i q hst hmode hfp hlen
    exact ⟨_, hbody e none i q hst hmode hfp hlen⟩

/-- Concrete in-progress practice exam with one pending question. -/
def hintWitnessExam : Exam :=
  { topic := "t", difficulty := "easy", question_type := "written",
    category := "concept", mode := "practice", time_limit_seconds := none,
    hints_used := 0, total_questions := 2, current_index := 0,
    score_total := 0, status := "in_progress",
    questions := [{ pending := true, question_text := "q", correct_answer := "a" }] }

/-- C9 witness: a failed model call still issues the first generic
hint on a concrete exam. -/
theorem C9_hint_failures_witness :
    ∃ e', getHint (some hintWitnessExam) none =
      .ok ({ hint := fallbackHints ((([] : List String)).length + 1),
             hints_used := hintWitnessExam.hints_used + 1,
             score_penalty :=
               round2 (((([] : List String).length + 1 : Nat) : ℚ) *
                 HINT_PENALTY_PER_HINT) }, e') :=
  C9_hint_failures.2.2 hintWitnessExam 0
    { pending := true, question_text := "q", correct_answer := "a" }
    rfl (by decide) rfl (by decide)

/-! ### Claim C1 — the pending-record invariant of the exam state machine -/

/-- The reverse scan finds the trailing pending record when everything
before it is answered. -/
lemma findLastPendingAux_concat : ∀ (front : List QRecord) (p : QRecord) (i : Nat),
    (∀ r ∈ front, r.pending = false) → p.pending = true →
    findLastPendingAux (front ++ [p]) i = some (i + front.length, p) := by
  intro front
  induction front with
  | nil =>
      intro p i hf hp
      simp [findLastPendingAux, hp]
  | cons a rest ih =>
      intro p i hf hp
      have hrest : ∀ r ∈ rest, r.pending = false :=
        fun r hr => hf r (List.mem_cons_of_mem a hr)
      have harith : i + 1 + rest.length = i + (rest.length + 1) := by omega
      show (match findLastPendingAux (rest ++ [p]) (i + 1) with
            | some r => some r
            | none => if a.pending = true then some (i, a) else none) =
        some (i + (a :: rest).length, p)
      rw [ih p (i + 1) hrest hp]
      simp [harith]

/-- The forward scan finds the same trailing pending record when
everything before it is answered. -/
lemma findFirstPendingAux_concat : ∀ (front : List QRecord) (p : QRecord) (i : Nat),
    (∀ r ∈ front, r.pending = false) → p.pending = true →
    findFirstPendingAux (front ++ [p]) i = some (i + front.length, p) := by
  intro front
  induction front with
  | nil =>
      intro p i hf hp
      simp [findFirstPendingAux, hp]
  | cons a rest ih =>
      intro p i hf hp
      have ha : a.pending = false := hf a (List.mem_cons_self a rest)
      have hrest : ∀ r ∈ rest, r.pending = false :=
        fun r hr => hf r (List.mem_cons_of_mem a hr)
      have harith : i + 1 + rest.length = i + (rest.length + 1) := by omega
      show (if a.pending = true then some (i, a)
            else findFirstPendingAux (rest ++ [p]) (i + 1)) =
        some (i + (a :: rest).length, p)
      rw [ha, ih p (i + 1) hrest hp]
      simp [harith]

/-- Overwriting the trailing element of a snoc list. -/
lemma set_concat_length (front : List QRecord) (p x : QRecord) :
    (front ++ [p]).set front.length x = front ++ [x] := by
  induction front with
  | nil => rfl
  | cons a rest ih => simp [List.set, ih]

/-- Answered records never test pending. -/
lemma filter_pending_none {l : List QRecord}
    (hf : ∀ r ∈ l, r.pending = false) :
    l.filter (fun r => r.pending) = [] := by
  rw [List.filter_eq_nil_iff]
  intro a ha
  simp [hf a ha]

/-- A fully answered prefix survives the non-pending filter intact. -/
lemma filter_nonpending_self {l : List QRecord}
    (hf : ∀ r ∈ l, r.pending = false) :
    l.filter (fun r => !r.pending) = l := by
  rw [List.filter_eq_self]
  intro a ha
  simp [hf a ha]

/-- The state invariant of an exam session: while in progress the
question list is an all-answered prefix followed by one pending record,
`current_index` counts the prefix and is strictly below
`total_questions`; once completed no record is pending and
`current_index` counts them all. -/
def Inv (e : Exam) : Prop :=
  (e.status = "in_progress" ∧ e.current_index < e.total_questions ∧
    ∃ front p, e.questions = front ++ [p] ∧ (∀ r ∈ front, r.pending = false) ∧
      p.pending = true ∧ e.current_index = front.length)
  ∨ (e.status = "completed" ∧ (∀ r ∈ e.questions, r.pending = false) ∧
      e.current_index = e.questions.length)

/-- The states reachable through the service API: a fresh
`start_exam`, followed by any interleaving of `submit_answer` and
`get_hint` calls that succeed. -/
inductive Reach : Exam → Prop where
  | start : ∀ (eid topic diff : String) (nq : Option Nat)
      (qt cat mode : String) (tls : Option Nat) (q : QuestionPayload),
      Reach (startExam eid topic diff nq qt cat mode tls q).1
  | submit : ∀ e ans gr nqp e' resp, Reach e →
      submitAnswer e ans gr nqp = .ok (e', resp) → Reach e'
  | hint : ∀ e llm res e', Reach e →
      getHint (some e) llm = .ok (res, e') → Reach e'

/-- A started exam always has at least one question (`num_questions or
DEFAULT_EXAM_QUESTIONS` is never zero). -/
lemma startExam_total_pos (eid t d : String) (nq : Option Nat)
    (qt cat mode : String) (tls : Option Nat) (q : QuestionPayload) :
    0 < ((startExam eid t d nq qt cat mode tls q).1).total_questions := by
  show 0 < (match nq with
            | some n => if n = 0 then DEFAULT_EXAM_QUESTIONS else n
            | none => DEFAULT_EXAM_QUESTIONS)
  cases nq with
  | none => decide
  | some n =>
      show 0 < (if n = 0 then DEFAULT_EXAM_QUESTIONS else n)
      by_cases hn : n = 0
      · rw [if_pos hn]; decide
      · rw [if_neg hn]; omega

/-- A fresh exam satisfies the invariant. -/
lemma inv_start (eid t d : String) (nq : Option Nat) (qt cat mode : String)
    (tls : Option Nat) (q : QuestionPayload) :
    Inv (startExam eid t d nq qt cat mode tls q).1 := by
  left
  exact ⟨rfl, startExam_total_pos eid t d nq qt cat mode tls q,
    [], _, rfl, by simp, rfl, rfl⟩

/-- Case analysis of a successful `submitWithPending`. -/
lemma submitWithPending_ok {e : Exam} {ans : String} {gr : GradeOut}
    {nqp : Option QuestionPayload} {idx : Nat} {pq : QRecord} {e' : Exam}
    {resp : List (String × Val)}
    (h : submitWithPending e ans gr nqp idx pq = .ok (e', resp)) :
    e'.total_questions = e.total_questions ∧
    e'.current_index = e.current_index + 1 ∧
    ((e.current_index + 1 ≥ e.total_questions ∧
      e'.status = "completed" ∧
      e'.questions = e.questions.set idx
        (answeredRecord pq ans gr (applyHintPenalty gr.score pq.hints)))
    ∨ (e.current_index + 1 < e.total_questions ∧
      e'.status = e.status ∧
      ∃ nq, nqp = some nq ∧
        e'.questions = e.questions.set idx
          (answeredRecord pq ans gr (applyHintPenalty gr.score pq.hints)) ++
          [freshRecord nq])) := by
  unfold submitWithPending at h
  dsimp only at h
  by_cases hge : e.current_index + 1 ≥ e.total_questions
  · rw [if_pos hge] at h
    simp only [Except.ok.injEq, Prod.mk.injEq] at h
    obtain ⟨he, -⟩ := h
    subst he
    exact ⟨rfl, rfl, Or.inl ⟨hge, rfl, rfl⟩⟩
  · rw [if_neg hge] at h
    cases nqp with
    | none => exact absurd h (by simp)
    | some nq =>
        simp only [Except.ok.injEq, Prod.mk.injEq] at h
        obtain ⟨he, -⟩ := h
        subst he
        exact ⟨rfl, rfl, Or.inr ⟨by omega, rfl, nq, rfl, rfl⟩⟩

/-- A successful `submit_answer` requires a non-completed exam and a
located pending record. -/
lemma submitAnswer_ok {e : Exam} {ans : String} {gr : GradeOut}
    {nqp : Option QuestionPayload} {e' : Exam} {resp : List (String × Val)}
    (h : submitAnswer e ans gr nqp = .ok (e', resp)) :
    e.status ≠ "completed" ∧
    ∃ idx pq, findLastPending e.questions = some (idx, pq) ∧
      submitWithPending e ans gr nqp idx pq = .ok (e', resp) := by
  unfold submitAnswer at h
  by_cases hst : e.status = "completed"
  · rw [if_pos hst] at h
    exact absurd h (by simp)
  · rw [if_neg hst] at h
    cases hfp : findLastPending e.questions with
    | none => rw [hfp] at h; exact absurd h (by simp)
    | some ip =>
        obtain ⟨idx, pq⟩ := ip
        rw [hfp] at h
        dsimp only at h
        exact ⟨hst, idx, pq, rfl, h⟩

/-- Full shape of a successful `submit_answer` from an invariant state:
the source state was in progress with a trailing pending record, and
the submission either was final — at least reaching `total_questions` —
and closed the exam with the answered record in place and nothing
pending appended, or was non-final and appended a fresh pending record
while staying in progress. -/
lemma submit_shape {e : Exam} {ans : String} {gr : GradeOut}
    {nqp : Option QuestionPayload} {e' : Exam} {resp : List (String × Val)}
    (hInv : Inv e) (h : submitAnswer e ans gr nqp = .ok (e', resp)) :
    ∃ front p, e.questions = front ++ [p] ∧ (∀ r ∈ front, r.pending = false) ∧
      p.pending = true ∧ e.current_index = front.length ∧
      e.status = "in_progress" ∧ e.current_index < e.total_questions ∧
      e'.total_questions = e.total_questions ∧
      e'.current_index = e.current_index + 1 ∧
      ((e.current_index + 1 ≥ e.total_questions ∧ e'.status = "completed" ∧
        e'.questions =
          front ++ [answeredRecord p ans gr (applyHintPenalty gr.score p.hints)])
      ∨ (e.current_index + 1 < e.total_questions ∧ e'.status = "in_progress" ∧
        ∃ nq, nqp = some nq ∧
          e'.questions =
            (front ++ [answeredRecord p ans gr (applyHintPenalty gr.score p.hints)]) ++
            [freshRecord nq])) := by
  obtain ⟨hst, idx, pq, hfp, hwp⟩ := submitAnswer_ok h
  rcases hInv with ⟨hstip, hlttot, front, p, hq, hfront, hp, hidx⟩ | ⟨hstc, -, -⟩
  swap
  · exact absurd hstc hst
  have hfl : findLastPending e.questions = some (front.length, p) := by
    unfold findLastPending
    rw [hq]
    simpa using findLastPendingAux_concat front p 0 hfront hp
  rw [hfl] at hfp
  simp only [Option.some.injEq, Prod.mk.injEq] at hfp
  obtain ⟨hidxeq, hpq⟩ := hfp
  subst hidxeq
  subst hpq
  have hset : e.questions.set front.length
      (answeredRecord p ans gr (applyHintPenalty gr.score p.hints)) =
      front ++ [answeredRecord p ans gr (applyHintPenalty gr.score p.hints)] := by
    rw [hq]
    exact set_concat_length front p _
  obtain ⟨htot, hidx', hcases⟩ := submitWithPending_ok hwp
  refine ⟨front, p, hq, hfront, hp, hidx, hstip, hlttot, htot, hidx', ?_⟩
  rcases hcases with ⟨hge, hstc', hq'⟩ | ⟨hlt, hst', nq, hnq, hq'⟩
  · exact Or.inl ⟨hge, hstc', by rw [hq', hset]⟩
  · exact Or.inr ⟨hlt, hst'.trans hstip, nq, hnq, by rw [hq', hset]⟩

/-- `submit_answer` preserves the invariant. -/
lemma inv_submit {e : Exam} {ans : String} {gr : GradeOut}
    {nqp : Option QuestionPayload} {e' : Exam} {resp : List (String × Val)}
    (hInv : Inv e) (h : submitAnswer e ans gr nqp = .ok (e', resp)) :
    Inv e' := by
  obtain ⟨front, p, hq, hfront, hp, hidx, hstip, hlttot, htot, hidx', hcases⟩ :=
    submit_shape hInv h
  rcases hcases with ⟨hge, hstc', hq'⟩ | ⟨hlt, hst', nq, hnq, hq'⟩
  · right
    refine ⟨hstc', ?_, ?_⟩
    · rw [hq']
      intro r hr
      rcases List.mem_append.mp hr with h1 | h1
      · exact hfront r h1
      · simp at h1
        subst h1
        rfl
    · rw [hidx', hq']
      simp [hidx]
  · left
    refine ⟨hst', ?_,
      front ++ [answeredRecord p ans gr (applyHintPenalty gr.score p.hints)],
      freshRecord nq, hq', ?_, rfl, ?_⟩
    · omega
    · intro r hr
      rcases List.mem_append.mp hr with h1 | h1
      · exact hfront r h1
      · simp at h1
        subst h1
        rfl
    · rw [hidx']
      simp [hidx]

/-- `get_hint` preserves the invariant (it only appends a hint text to
the pending record). -/
lemma inv_hint {e : Exam} {llm : Option String} {res : HintResult} {e' : Exam}
    (hInv : Inv e) (h : getHint (some e) llm = .ok (res, e')) : Inv e' := by
  unfold getHint at h
  dsimp only at h
  by_cases hst : e.status = "in_progress"
  case neg =>
    rw [if_pos (by simp [hst])] at h
    exact absurd h (by simp)
  rw [if_neg (by simp [hst])] at h
  by_cases hmode : e.mode = "timed"
  · rw [if_pos hmode] at h
    exact absurd h (by simp)
  rw [if_neg hmode] at h
  rcases hInv with ⟨-, hlttot, front, p, hq, hfront, hp, hidx⟩ | ⟨hstc, -, -⟩
  swap
  · exact absurd (hstc.symm.trans hst) (by decide)
  have hff : findFirstPending e.questions = some (front.length, p) := by
    unfold findFirstPending
    rw [hq]
    simpa using findFirstPendingAux_concat front p 0 hfront hp
  rw [hff] at h
  dsimp only at h
  by_cases hlen : p.hints.length + 1 > MAX_HINTS_PER_QUESTION
  · rw [if_pos hlen] at h
    exact absurd h (by simp)
  · rw [if_neg hlen] at h
    simp only [Except.ok.injEq, Prod.mk.injEq] at h
    obtain ⟨-, he⟩ := h
    subst he
    left
    refine ⟨hst, hlttot, front,
      { p with hints := p.hints ++ [generateHint llm (p.hints.length + 1)] },
      ?_, hfront, hp, ?_⟩
    · show e.questions.set front.length _ = _
      rw [hq]
      exact set_concat_length front p _
    · exact hidx

/-- Every reachable exam state satisfies the invariant. -/
lemma reach_inv : ∀ e, Reach e → Inv e := by
  intro e h
  induction h with
  | start eid t d nq qt cat mode tls q => exact inv_start eid t d nq qt cat mode tls q
  | submit e ans gr nqp e' resp hre hsub ih => exact inv_submit ih hsub
  | hint e llm res e' hre hh ih => exact inv_hint ih hh

/-- C1: after `start_exam` the session holds exactly one record, which
is pending; a successful `submit_answer` from a reachable state on a
non-final question (`current_index + 1 < total_questions`) leaves the
exam in progress with exactly one pending record — the newly appended
last one — and all prior records answered, while a final submission
(`current_index + 1 ≥ total_questions`) completes the exam with zero
pending records; at every reachable state `current_index` equals the
count of non-pending records; and a reachable state with
`current_index = total_questions` is completed with no pending
record. -/
theorem C1_pending_invariant :
    (∀ (eid t d : String) (nq : Option Nat) (qt cat mode : String)
        (tls : Option Nat) (q : QuestionPayload),
        ((startExam eid t d nq qt cat mode tls q).1).questions.length = 1 ∧
        (((startExam eid t d nq qt cat mode tls q).1).questions.filter
          (fun r => r.pending)).length = 1 ∧
        ∀ r ∈ ((startExam eid t d nq qt cat mode tls q).1).questions,
          r.pending = true) ∧
    (∀ e ans gr nqp e' resp, Reach e →
        submitAnswer e ans gr nqp = .ok (e', resp) →
        (e.current_index + 1 < e.total_questions →
          e'.status = "in_progress" ∧
          (e'.questions.filter (fun r => r.pending)).length = 1 ∧
          (∃ last, e'.questions.getLast? = some last ∧ last.pending = true) ∧
          ∀ r ∈ e'.questions.dropLast, r.pending = false) ∧
        (e.current_index + 1 ≥ e.total_questions →
          e'.status = "completed" ∧
          (e'.questions.filter (fun r => r.pending)).length = 0)) ∧
    (∀ e, Reach e → e.current_index =
        (e.questions.filter (fun r => !r.pending)).length) ∧
    (∀ e, Reach e → e.current_index = e.total_questions →
        e.status = "completed" ∧
        (e.questions.filter (fun r => r.pending)).length = 0) := by
  refine ⟨?_, ?_, ?_, ?_⟩
  · intro eid t d nq qt cat mode tls q
    refine ⟨rfl, rfl, ?_⟩
    intro r hr
    cases hr with
    | head => rfl
    | tail _ h => cases h
  · intro e ans gr nqp e' resp hre hsub
    obtain ⟨front, p, hq, hfront, hp, hidx, hstip, hlttot, htot, hidx', hcases⟩ :=
      submit_shape (reach_inv e hre) hsub
    rcases hcases with ⟨hge, hstc', hq'⟩ | ⟨hlt, hst', nq, hnq, hq'⟩
    · refine ⟨fun hnf => absurd hnf (by omega), fun _ => ⟨hstc', ?_⟩⟩
      have hall : ∀ r ∈ front ++
          [answeredRecord p ans gr (applyHintPenalty gr.score p.hints)],
          r.pending = false := by
        intro r hr
        rcases List.mem_append.mp hr with h1 | h1
        · exact hfront r h1
        · simp at h1
          subst h1
          rfl
      rw [hq', filter_pending_none hall]
      rfl
    · refine ⟨fun _ => ⟨hst', ?_, ?_, ?_⟩, fun hf => absurd hf (by omega)⟩
      · rw [hq', List.filter_append, filter_pending_none (l :=
          front ++ [answeredRecord p ans gr (applyHintPenalty gr.score p.hints)]) ?_]
        · simp [List.filter_cons, freshRecord]
        · intro r hr
          rcases List.mem_append.mp hr with h1 | h1
          · exact hfront r h1
          · simp at h1
            subst h1
            rfl
      · refine ⟨freshRecord nq, ?_, rfl⟩
        rw [hq']
        exact List.getLast?_concat _
      · rw [hq', List.dropLast_concat]
        intro r hr
        rcases List.mem_append.mp hr with h1 | h1
        · exact hfront r h1
        · simp at h1
          subst h1
          rfl
  · intro e hre
    rcases reach_inv e hre with ⟨-, -, front, p, hq, hfront, hp, hidx⟩ | ⟨-, hall, hidx⟩
    · rw [hq, List.filter_append, filter_nonpending_self hfront]
      simp [List.filter_cons, hp, hidx]
    · rw [filter_nonpending_self hall]
      exact hidx
  · intro e hre heq
    rcases reach_inv e hre with ⟨-, hlttot, -⟩ | ⟨hstc, hall, -⟩
    · exact absurd heq (by omega)
    · exact ⟨hstc, by rw [filter_pending_none hall]; rfl⟩

/-- Concrete first question for the C1 witness run. -/
def wq1 : QuestionPayload := { question_text := "q1", correct_answer := "a1" }

/-- Concrete second question for the C1 witness run. -/
def wq2 : QuestionPayload := { question_text := "q2", correct_answer := "a2" }

/-- Concrete two-question exam freshly started. -/
def witnessExam0 : Exam :=
  (startExam "e" "t" "d" (some 2) "written" "concept" "practice" none wq1).1

/-- Concrete grading outcome for the C1 witness run. -/
def witnessGrade : GradeOut := { score := 8, passed := true }

/-- One concrete non-final submission on `witnessExam0`. -/
def witnessSubmit : Except String (Exam × List (String × Val)) :=
  submitAnswer witnessExam0 "ans" witnessGrade (some wq2)

/-- The post-submission exam state of the C1 witness run. -/
def witnessExam1 : Exam :=
  match witnessSubmit with
  | .ok (e, _) => e
  | .error _ => witnessExam0

/-- The submission response of the C1 witness run. -/
def witnessResp : List (String × Val) :=
  match witnessSubmit with
  | .ok (_, r) => r
  | .error _ => []

/-- The concrete final submission on `witnessExam1`. -/
def witnessSubmit2 : Except String (Exam × List (String × Val)) :=
  submitAnswer witnessExam1 "ans2" witnessGrade none

/-- The completed exam state after the final submission. -/
def witnessExam2 : Exam :=
  match witnessSubmit2 with
  | .ok (e, _) => e
  | .error _ => witnessExam1

/-- The final-submission response of the C1 witness run. -/
def witnessResp2 : List (String × Val) :=
  match witnessSubmit2 with
  | .ok (_, r) => r
  | .error _ => []

/-- C1 witness: the invariant theorem applied along a concrete
start, non-final submit, final submit run. -/
theorem C1_pending_invariant_witness :
    (witnessExam1.status = "in_progress" ∧
      (witnessExam1.questions.filter (fun r => r.pending)).length = 1 ∧
      (∃ last, witnessExam1.questions.getLast? = some last ∧
        last.pending = true) ∧
      ∀ r ∈ witnessExam1.questions.dropLast, r.pending = false) ∧
    (witnessExam2.status = "completed" ∧
      (witnessExam2.questions.filter (fun r => r.pending)).length = 0) ∧
    witnessExam0.current_index =
      (witnessExam0.questions.filter (fun r => !r.pending)).length := by
  have hre0 : Reach witnessExam0 :=
    Reach.start "e" "t" "d" (some 2) "written" "concept" "practice" none wq1
  have hsub1 : submitAnswer witnessExam0 "ans" witnessGrade (some wq2) =
      .ok (witnessExam1, witnessResp) := rfl
  have hre1 : Reach witnessExam1 :=
    Reach.submit witnessExam0 "ans" witnessGrade (some wq2) witnessExam1
      witnessResp hre0 hsub1
  have hsub2 : submitAnswer witnessExam1 "ans2" witnessGrade none =
      .ok (witnessExam2, witnessResp2) := rfl
  have hre2 : Reach witnessExam2 :=
    Reach.submit witnessExam1 "ans2" witnessGrade none witnessExam2
      witnessResp2 hre1 hsub2
  refine ⟨?_, ?_, ?_⟩
  · exact (C1_pending_invariant.2.1 witnessExam0 "ans" witnessGrade (some wq2)
      witnessExam1 witnessResp hre0 hsub1).1 (by decide)
  · exact C1_pending_invariant.2.2.2 witnessExam2 hre2 (by decide)
  · exact C1_pending_invariant.2.2.1 witnessExam0 hre0

end IPT
